import Mathlib

/-!
Verification of the Bot-trade order-lifecycle coordination protocol.

This file gives a shallow embedding, in Lean, of the parts of the Bot-trade
repository that the specification's testable properties talk about:

* `components/order_manager.py` — the Execution Gateway: the retry policy on
  exchange API calls, the new-order submission path, and the private
  order-stream handler that reconciles push events into the `orders` table;
* `components/trading_engine.py` — the Decision Engine: the position query,
  position sizing, the command publishers, the candle handler (lock check,
  timeout rule, TP1 partial close, opposite-signal close, trailing stop) and
  the order-update handler (the TP1 state machine);
* `strategies/ema_rsi_strategy.py` — the signal rule over indicator values;
* `database/models.py` — the `Order` row.

Machine floats are modelled throughout as exact rationals (`ℚ`); Python's
`round(x, n)` is modelled as round-half-to-even at `n` decimal digits.
Network, store and bus effects are made explicit: handlers are pure functions
from a state plus an environment record (the values the surrounding API and
store calls would return) to a new state plus the list of messages published
on the bus.  The Redis bus is modelled as reliable (publish never fails);
each handler invocation is atomic, matching the single-threaded dispatch
loops of both processes.
-/

namespace BotTrade

/-- Round-half-to-even on rationals, as Python's `round` behaves on the exact
value (ties go to the even integer). -/
def roundHalfEven (q : ℚ) : ℤ :=
  let n := ⌊q⌋
  let frac := q - n
  if frac < 1/2 then n
  else if 1/2 < frac then n + 1
  else if n % 2 = 0 then n else n + 1

/-- Python's `round(q, nd)` on exact rationals. -/
def pyRound (q : ℚ) (nd : ℕ) : ℚ :=
  (roundHalfEven (q * 10 ^ nd) : ℚ) / 10 ^ nd

/-- Modelled from the spec: a quantity "floored to the instrument's quantity
step" with step 0.001 — the sizing rule the spec states.  Used only to
compare the spec's flooring with the code's `round(qty, 3)`. -/
def specFlooredQty (q : ℚ) : ℚ :=
  (⌊q * 1000⌋ : ℚ) / 1000

/-! ## Execution Gateway: error classification and retry policy
    (`order_manager.py`, `is_retryable_api_error` and `RETRY_POLICY`) -/

/-- `NON_RETRYABLE_ERROR_CODES` from `order_manager.py`. -/
def nonRetryableErrorCodes : List ℤ :=
  [10001, 10002, 10004, 10005, 110001, 110006, 110007,
   110012, 110013, 110017, 110020, 110043]

/-- The exceptions the pybit client raises, as the retry predicate
distinguishes them: `FailedRequestError` (transport / 5xx),
`InvalidRequestError` (4xx, carrying `ret_code` / `status_code`), or any
other exception type. -/
inductive ApiException where
  | failedRequest (statusCode : ℕ)
  | invalidRequest (retCode : Option ℤ) (statusCode : Option ℕ)
  | otherError
  deriving DecidableEq, Repr

/-- `is_retryable_api_error` from `order_manager.py`: 5xx transport errors
are retryable; a 4xx is retryable only for the rate-limit signal
(`ret_code == 10006 or status_code == 429`); every other 4xx — including the
listed parameter / permission / signature / balance codes — and every other
exception type is not retried. -/
def isRetryableApiError : ApiException → Bool
  | .failedRequest _ => true
  | .invalidRequest retCode statusCode =>
      if retCode = some 10006 ∨ statusCode = some 429 then true
      else if retCode.elim false (fun c => decide (c ∈ nonRetryableErrorCodes)) then false
      else false
  | .otherError => false

/-- tenacity's `wait_exponential(multiplier=1, min=1, max=10)`: the wait after
attempt number `n` is `multiplier * 2 ^ n`, clamped into `[min, max]`. -/
def waitExponential (multiplier lo hi : ℚ) (attemptNumber : ℕ) : ℚ :=
  max (max 0 lo) (min (multiplier * 2 ^ attemptNumber) hi)

/-- Wait bound used by `RETRY_POLICY` after failed attempt `n`. -/
def retryWait (attemptNumber : ℕ) : ℚ := waitExponential 1 1 10 attemptNumber

/-- Outcome of running a retried API call: how many attempts were made, the
backoff waits taken between attempts, and the final result. -/
structure RetryOutcome (α : Type) where
  attempts : ℕ
  waits : List ℚ
  result : Except ApiException α
  deriving Repr

/-- The tenacity `@retry(**RETRY_POLICY)` loop: attempt the call; on an
exception, retry (after the exponential backoff wait) only while
`is_retryable_api_error` holds and fewer than `stop_after_attempt(3)`
attempts were made; otherwise surface the failure.  `behavior n` is the
outcome of the `n`-th attempt (1-based); `remaining` is structural fuel,
always instantiated so the attempt bound is what stops the loop. -/
def retryRun {α : Type} (behavior : ℕ → Except ApiException α) :
    (remaining : ℕ) → (attemptNumber : ℕ) → RetryOutcome α
  | 0, k => ⟨k - 1, [], .error .otherError⟩
  | r + 1, k =>
    match behavior k with
    | .ok a => ⟨k, [], .ok a⟩
    | .error e =>
      if isRetryableApiError e ∧ k < 3 then
        let rest := retryRun behavior r (k + 1)
        ⟨rest.attempts, retryWait k :: rest.waits, rest.result⟩
      else ⟨k, [], .error e⟩

/-- A decorated API call (`_send_new_order_to_api`, `_send_close_order_to_api`,
`_send_modify_order_to_api`): up to 3 attempts starting at attempt 1. -/
def runApiCallWithRetry {α : Type} (behavior : ℕ → Except ApiException α) :
    RetryOutcome α :=
  retryRun behavior 3 1

/-! ## The `Order` row (`database/models.py`) and the gateway store -/

/-- One row of the `orders` table, per `database/models.py`.  Note the model
defines `entry_price_estimate` and `avg_price` but **no** `entry_price`
column — `order_manager.py` nevertheless reads `order.entry_price`, which
raises `AttributeError` at runtime; the embedding reflects those aborts. -/
structure OrderRow where
  client_order_id : String
  order_id : Option String := none
  symbol : String := ""
  side : String := ""
  order_type : String := "Market"
  price : Option ℚ := none
  qty : ℚ := 0
  stop_loss : Option ℚ := none
  take_profit : Option ℚ := none
  status : String := "Pending"
  new_stop_loss : Option ℚ := none
  new_take_profit : Option ℚ := none
  position_idx : Option ℤ := none
  avg_price : Option ℚ := none
  error_message : Option String := none
  entry_price_estimate : Option ℚ := none
  tp1_price : Option ℚ := none
  is_tp1_hit : Bool := false
  tp1_rr : Option ℚ := none
  deriving DecidableEq, Repr

/-- The `orders` table, keyed by the unique `client_order_id`. -/
abbrev OrderDb := List OrderRow

/-- `SELECT ... WHERE client_order_id = cid LIMIT 1`. -/
def findOrder (db : OrderDb) (cid : String) : Option OrderRow :=
  db.find? (fun o => o.client_order_id = cid)

/-- Commit an updated row (row identity given by `client_order_id`). -/
def updateOrder (db : OrderDb) (row : OrderRow) : OrderDb :=
  db.map (fun o => if o.client_order_id = row.client_order_id then row else o)

/-- Count rows persisted under a given `client_order_id`. -/
def countOrders (db : OrderDb) (cid : String) : ℕ :=
  (db.filter (fun o => o.client_order_id = cid)).length

/-- A normalized status event published on `orders:update`
(`OrderManager._publish_update`). -/
structure PublishedUpdate where
  client_order_id : String
  order_id : Option String := none
  status : String
  avg_price : ℚ := 0
  error : Option String := none
  deriving DecidableEq, Repr

/-- The terminal statuses recognized by the order-stream handler. -/
def terminalStatuses : List String := ["Filled", "Cancelled", "Rejected", "Expired"]

/-- Character-list prefix test (structural recursion, so concrete instances
evaluate inside the kernel). -/
def charListLeads : List Char → List Char → Bool
  | [], _ => true
  | _ :: _, [] => false
  | c :: cs, d :: ds => c = d && charListLeads cs ds

/-- Python's `s.startswith(pre)`. -/
def strStartsWith (s pre : String) : Bool :=
  charListLeads pre.data s.data

/-! ## Order-stream reconciliation (`OrderManager._handle_order_update`) -/

/-- One order record of a V5 websocket `order` push event, with the fields
the handler reads (`avgPrice` already passed through `float`, `"0"` / empty
mapping to `0`). -/
structure WsOrder where
  symbol : String
  orderLinkId : String
  orderStatus : String
  orderId : String
  avgPrice : ℚ := 0
  rejectReason : String := ""
  deriving DecidableEq, Repr

/-- Result of handling one push event: the store afterwards and the events
published on `orders:update`. -/
structure UpdateOutcome where
  db : OrderDb
  published : List PublishedUpdate
  deriving DecidableEq, Repr

/-- `OrderManager._handle_order_update`, for one order record of a push
event.  The handler drops records for other symbols or without the `bot_`
id marker, locks the matching row, and overwrites `status` / `order_id`
whenever the incoming status differs from the stored one (or is terminal).
Two aborts are inherited from the source: the `Order` model has no
`entry_price` attribute, so

* for a `Filled` event with positive `avgPrice`, evaluating
  `order.entry_price is None` raises `AttributeError` before the commit and
  the whole update rolls back (store unchanged);
* for every other terminal event the commit succeeds first, but building
  `final_avg_price` for the publish raises the same `AttributeError`, so the
  status change persists while nothing is published. -/
def handleOrderUpdate (mgrSymbol : String) (db : OrderDb) (ev : WsOrder) :
    UpdateOutcome :=
  if ev.symbol ≠ mgrSymbol then ⟨db, []⟩
  else if ¬ strStartsWith ev.orderLinkId "bot_" then ⟨db, []⟩
  else
    match findOrder db ev.orderLinkId with
    | none => ⟨db, []⟩
    | some order =>
      if order.status ≠ ev.orderStatus ∨ ev.orderStatus ∈ terminalStatuses then
        if ev.orderStatus = "Filled" ∧ ev.avgPrice > 0 then
          ⟨db, []⟩
        else
          let updated := { order with
            status := ev.orderStatus, order_id := some ev.orderId }
          ⟨updateOrder db updated, []⟩
      else ⟨db, []⟩

/-! ## New-order submission (`OrderManager._execute_new_order`) -/

/-- The V5 REST response body as the gateway reads it. -/
structure ApiResponse where
  retCode : ℤ
  retMsg : String := ""
  orderId : Option String := none
  deriving DecidableEq, Repr

/-- Result of `_execute_new_order`: the store, the events published on
`orders:update`, and how many exchange API attempts were made. -/
structure NewOrderResult where
  db : OrderDb
  published : List PublishedUpdate
  apiAttempts : ℕ
  deriving Repr

/-- `OrderManager._execute_new_order`: if a row with this `client_order_id`
already exists the request is logged and **ignored** — no API call, no store
change, and no event published.  Otherwise the row is persisted with status
`pending_submission` before the (retried) exchange call; on `retCode = 0`
the row moves to `Submitted`, on an API-level error or a raised exception it
moves to `failed` and a `failed` event is published. -/
def executeNewOrder (db : OrderDb) (order : OrderRow)
    (behavior : ℕ → Except ApiException ApiResponse) : NewOrderResult :=
  match findOrder db order.client_order_id with
  | some _ => ⟨db, [], 0⟩
  | none =>
    let row := { order with status := "pending_submission" }
    let db1 := db ++ [row]
    let call := runApiCallWithRetry behavior
    match call.result with
    | .ok resp =>
      if resp.retCode = 0 then
        ⟨updateOrder db1 { row with order_id := resp.orderId, status := "Submitted" },
         [], call.attempts⟩
      else
        ⟨updateOrder db1 { row with status := "failed" },
         [{ client_order_id := order.client_order_id, status := "failed",
            error := some ("API Error Code=" ++ toString resp.retCode) }],
         call.attempts⟩
    | .error _ =>
      ⟨updateOrder db1 { row with status := "failed" },
       [{ client_order_id := order.client_order_id, status := "failed",
          error := some "API Error" }],
       call.attempts⟩

/-! ## Decision Engine: position query (`TradingEngine._get_current_position`) -/

/-- A string field of an exchange JSON record, as the engine reads it: the
key may be absent (`.get` default applies), the string may be empty (falsy),
numeric (parsed by `float`), or non-numeric (`float` raises). -/
inductive PyStr where
  | missing
  | empty
  | num (q : ℚ)
  | bad
  deriving DecidableEq, Repr

/-- One entry of the V5 `get_positions` result list. -/
structure PosEntry where
  size : PyStr := .missing
  side : Option String := none
  avgPrice : PyStr := .missing
  positionIdx : Option ℤ := none
  stopLoss : PyStr := .missing
  takeProfit : PyStr := .missing
  deriving DecidableEq, Repr

/-- The V5 `get_positions` response body. -/
structure PosResponse where
  retCode : ℤ
  list : List PosEntry := []
  deriving DecidableEq, Repr

/-- The tuple `_get_current_position` returns:
`(size, side, avg_price, position_idx, stop_loss, take_profit)`. -/
abbrev PosTuple := ℚ × Option String × ℚ × ℤ × ℚ × ℚ

/-- The flat tuple `(0.0, None, 0.0, 0, 0.0, 0.0)` returned when there is no
open position and on every failure path. -/
def flatPosition : PosTuple := (0, none, 0, 0, 0, 0)

/-- `x = p.get(key, "0"); float(x) if x else 0.0` — missing maps to `"0"`,
an empty string short-circuits to `0.0`, a bad string raises. -/
def floatOrZero : PyStr → Except Unit ℚ
  | .missing => .ok 0
  | .empty => .ok 0
  | .num q => .ok q
  | .bad => .error ()

/-- `size = p.get('size', "0"); if size and float(size) > 0:` — the guard for
one entry: `none` when the entry is skipped, `some q` with `q > 0` when it is
taken, an error when `float` raises. -/
def positiveSize : PyStr → Except Unit (Option ℚ)
  | .missing => .ok none
  | .empty => .ok none
  | .num q => .ok (if q > 0 then some q else none)
  | .bad => .error ()

/-- The `for p in lst:` loop body of `_get_current_position`: return the
first entry with a positive parsed size, parsing its remaining fields;
propagate a `float` failure as an exception. -/
def scanPositions : List PosEntry → Except Unit (Option PosTuple)
  | [] => .ok none
  | p :: rest => do
    match ← positiveSize p.size with
    | none => scanPositions rest
    | some sz => do
      let avg ← floatOrZero p.avgPrice
      let sl ← floatOrZero p.stopLoss
      let tp ← floatOrZero p.takeProfit
      .ok (some (sz, p.side, avg, p.positionIdx.getD 0, sl, tp))

/-- `TradingEngine._get_current_position`: a raised API or transport
exception, a non-zero `retCode`, a malformed entry, and an empty / all-flat
position list all collapse to `flatPosition`. -/
def getCurrentPosition (res : Except ApiException PosResponse) : PosTuple :=
  match res with
  | .error _ => flatPosition
  | .ok r =>
    if r.retCode = 0 then
      match scanPositions r.list with
      | .ok (some t) => t
      | .ok none => flatPosition
      | .error _ => flatPosition
    else flatPosition

/-! ## Strategy signal (`EmaRsiStrategy.generate_signal`) -/

/-- Strategy parameters the signal rule reads (from `config.yaml`). -/
structure StrategyParams where
  adxThreshold : ℚ := 0
  rsiConvictionThreshold : ℚ := 60
  highConvictionRiskMult : ℚ := 1
  lowConvictionRiskMult : ℚ := 1/2
  deriving Repr

/-- The indicator columns of one dataframe row, after
`calculate_indicators` (the engine returns early while any of these is NaN,
so rows reaching the signal rule carry concrete values). -/
structure IndicatorRow where
  close : ℚ
  low : ℚ
  high : ℚ
  emaShort : ℚ
  emaLong : ℚ
  rsi : ℚ
  regime : ℚ
  atr : ℚ
  adx : ℚ
  deriving Repr

/-- The signal tuple `generate_signal` returns. -/
structure SignalData where
  signal : String
  slBasePrice : ℚ
  atrValue : ℚ
  riskMultiplier : ℚ
  adxValue : ℚ
  deriving Repr

/-- `EmaRsiStrategy.generate_signal` over the last two indicator rows:
long on a short-over-long EMA cross-up with RSI above 50, close above the
regime EMA and ADX above the threshold; short on the mirrored conditions;
the conviction multiplier is raised when RSI clears the conviction
threshold.  The stop-loss base price is the signal candle's raw `low`
(long) or `high` (short). -/
def generateSignal (p : StrategyParams) (prev last : IndicatorRow) :
    Option SignalData :=
  let isTrending := last.adx > p.adxThreshold
  let isUptrendRegime := last.close > last.regime
  let isDowntrendRegime := last.close < last.regime
  let crossUp := last.emaShort > last.emaLong ∧ prev.emaShort ≤ prev.emaLong
  let crossDown := last.emaShort < last.emaLong ∧ prev.emaShort ≥ prev.emaLong
  if crossUp ∧ last.rsi > 50 ∧ isUptrendRegime ∧ isTrending then
    some { signal := "long", slBasePrice := last.low, atrValue := last.atr,
           riskMultiplier :=
             if last.rsi > p.rsiConvictionThreshold then p.highConvictionRiskMult
             else p.lowConvictionRiskMult,
           adxValue := last.adx }
  else if crossDown ∧ last.rsi < 50 ∧ isDowntrendRegime ∧ isTrending then
    some { signal := "short", slBasePrice := last.high, atrValue := last.atr,
           riskMultiplier :=
             if last.rsi < 100 - p.rsiConvictionThreshold then p.highConvictionRiskMult
             else p.lowConvictionRiskMult,
           adxValue := last.adx }
  else none

/-! ## Decision Engine: configuration, state, publishers
    (`trading_engine.py`) -/

/-- `MIN_ORDER_QTY` (0.001). -/
def minOrderQty : ℚ := 1/1000

/-- `PENDING_ORDER_TIMEOUT` (120 seconds). -/
def pendingOrderTimeout : ℚ := 120

/-- The engine configuration fields read by the candle and update handlers
(`risk_params` plus the strategy parameters). -/
structure EngineConfig where
  symbol : String := "BTCUSDT"
  strategy : StrategyParams := {}
  tp1RR : ℚ := 0
  tp1ClosePerc : ℚ := 1/2
  moveSlToBe : Bool := true
  maxNegFunding : ℚ := -1
  minBalance : ℚ := 0
  riskPerTrade : ℚ := 0
  atrMultiplier : ℚ := 1
  shadowMode : Bool := false
  deriving Repr

/-- `TradingEngine._calculate_position_size`: risk amount is
`min(balance * risk_pct * multiplier, balance * 0.95)`; quantity is the risk
amount over the entry-to-stop distance; the request is refused (`None`) for
a balance below the minimum, a non-positive risk setting, non-positive
prices, a zero distance, or an (unrounded) quantity below `MIN_ORDER_QTY`;
otherwise the quantity is `round(qty, 3)` (Python half-even rounding). -/
def calculatePositionSize (cfg : EngineConfig) (balance entry stop mult : ℚ) :
    Option ℚ :=
  if balance < cfg.minBalance then none
  else if cfg.riskPerTrade ≤ 0 then none
  else
    let riskPercent := cfg.riskPerTrade / 100
    let baseRisk := balance * riskPercent
    let riskAmount := min (baseRisk * mult) (balance * (95/100))
    if entry ≤ 0 ∨ stop ≤ 0 then none
    else
      let slDistance := |entry - stop|
      if slDistance = 0 then none
      else
        let qty := riskAmount / slDistance
        if qty < minOrderQty then none
        else some (pyRound qty 3)

/-- A command published on the bus by the Decision Engine: the channel
(`orders:new` for opens and market closes, `orders:modify` for SL/TP
modifications) and the payload fields. -/
structure Command where
  channel : String
  cid : String
  side : Option String := none
  qty : Option ℚ := none
  stopLoss : Option ℚ := none
  takeProfit : Option ℚ := none
  newStopLoss : Option ℚ := none
  newTakeProfit : Option ℚ := none
  posIdx : Option ℤ := none
  entryPriceEstimate : Option ℚ := none
  tp1Price : Option ℚ := none
  tp1RR : Option ℚ := none
  deriving DecidableEq, Repr

/-- The `pending_order` lock record:
`{"cid": ..., "timestamp": ..., "action": ..., ["pos_idx": ...]}`. -/
structure PendingOrder where
  cid : String
  timestamp : ℚ
  action : String
  posIdx : Option ℤ := none
  deriving DecidableEq, Repr

/-- The `active_position_details` cache; `none` models the empty dict. -/
structure ActiveDetails where
  entryPrice : Option ℚ := none
  tp1Price : Option ℚ := none
  isTp1Hit : Bool := false
  deriving DecidableEq, Repr

/-- The Decision Engine's in-memory lifecycle state. -/
structure EngineState where
  pendingOrder : Option PendingOrder := none
  activeOrderCid : Option String := none
  details : Option ActiveDetails := none
  deriving DecidableEq, Repr

/-- The tuple `_get_current_position` returns, as the candle handler
destructures it. -/
structure PosState where
  size : ℚ := 0
  side : Option String := none
  entryPx : ℚ := 0
  posIdx : ℤ := 0
  curSl : ℚ := 0
  curTp : ℚ := 0
  deriving Repr

/-- The environment of one candle-handler invocation: the wall clock, the
uuid fragment for this step's command id, and the values the API / store
calls made during the step would return.  `candleAccepted` folds the
timestamp parse, the stale-candle check and the indicators-ready (non-NaN)
check; `prevRow` / `lastRow` are the indicator rows after appending the
candle. -/
structure CandleEnv where
  now : ℚ
  freshId : String := "0000"
  livePrice : Option ℚ := none
  balance : ℚ := 0
  fundingRate : ℚ := 0
  position : PosState := {}
  syncPosition : PosState := {}
  lastFilledOpen : Option OrderRow := none
  candleAccepted : Bool := true
  prevRow : IndicatorRow
  lastRow : IndicatorRow
  deriving Repr

/-- `TradingEngine._publish_open_order`: hard fail-safe when the live ticker
price is unavailable (no fallback to candle data); stop-loss is the signal's
base price rounded to 2 decimals; TP1 is derived from the estimated entry
when a TP1 risk/reward is configured; sizing failures, the funding-rate
filter, and shadow mode suppress the publish (shadow mode still returns a
cid). -/
def publishOpenOrder (cfg : EngineConfig) (env : CandleEnv) (sig : SignalData) :
    Option String × List Command :=
  let cid := "bot_open_" ++ env.freshId
  match env.livePrice with
  | none => (none, [])
  | some entryPrice =>
    let side := if sig.signal = "long" then "Buy" else "Sell"
    let stopLossPrice := pyRound sig.slBasePrice 2
    let tp1Price : ℚ :=
      if cfg.tp1RR > 0 then
        let slDistance := |entryPrice - stopLossPrice|
        if side = "Buy" then pyRound (entryPrice + slDistance * cfg.tp1RR) 2
        else pyRound (entryPrice - slDistance * cfg.tp1RR) 2
      else 0
    match calculatePositionSize cfg env.balance entryPrice stopLossPrice
        sig.riskMultiplier with
    | none => (none, [])
    | some qty =>
      if qty ≤ 0 then (none, [])
      else if side = "Buy" ∧ cfg.maxNegFunding < 0 ∧
          env.fundingRate < cfg.maxNegFunding then (none, [])
      else if cfg.shadowMode then (some cid, [])
      else
        (some cid,
         [{ channel := "orders:new", cid := cid, side := some side,
            qty := some qty, stopLoss := some stopLossPrice,
            takeProfit := none,
            entryPriceEstimate := some entryPrice,
            tp1Price := if tp1Price > 0 then some tp1Price else none,
            tp1RR := if cfg.tp1RR > 0 then some cfg.tp1RR else none }])

/-- `TradingEngine._publish_modify_order` (bus reliable, so a cid is always
returned; shadow mode suppresses the actual publish). -/
def publishModifyOrder (cfg : EngineConfig) (freshId : String) (posIdx : ℤ)
    (stopLoss takeProfit : ℚ) : String × List Command :=
  let cid := "bot_mod_" ++ freshId
  let sl := pyRound stopLoss 2
  let tp := pyRound takeProfit 2
  if cfg.shadowMode then (cid, [])
  else
    (cid,
     [{ channel := "orders:modify", cid := cid, posIdx := some posIdx,
        newStopLoss := some sl, newTakeProfit := some tp }])

/-- `TradingEngine._publish_close_order`: a market order on the opposite
side, published on `orders:new`. -/
def publishCloseOrder (cfg : EngineConfig) (freshId : String) (qty : ℚ)
    (sideToClose : String) (isPartial : Bool) : String × List Command :=
  let cid := (if isPartial then "bot_close_partial_" else "bot_close_total_")
      ++ freshId
  let side := if sideToClose = "Buy" then "Sell" else "Buy"
  if cfg.shadowMode then (cid, [])
  else
    (cid,
     [{ channel := "orders:new", cid := cid, side := some side,
        qty := some qty }])

/-- `TradingEngine._sync_position_on_startup` (also run on timeout and
forced resyncs).  With a live exchange position, the most recent `Filled`
non-closing row recovers the active cid; the details dict literal then reads
`last_open_order.entry_price` — an attribute the `Order` model does not
define — so an `AttributeError` is caught and `active_position_details`
keeps its previous value.  With a position but no such row only the details
cache is emptied; with no position both are reset. -/
def syncPositionOnStartup (s : EngineState) (env : CandleEnv) : EngineState :=
  if env.syncPosition.size > 0 then
    match env.lastFilledOpen with
    | some row => { s with activeOrderCid := some row.client_order_id }
    | none => { s with details := none }
  else
    { s with activeOrderCid := none, details := none }

/-! ## Decision Engine: candle handler (`TradingEngine._on_new_candle`) -/

/-- Result of one candle-handler invocation: the state afterwards, the
commands published, and whether a reconciliation pass
(`_sync_position_on_startup`) ran during the step. -/
structure CandleResult where
  state : EngineState
  commands : List Command
  syncRan : Bool
  deriving Repr

/-- `is_tp1_hit = True` on the in-memory details cache (the paired
`_update_order_state_in_db` store write is not modelled; no claim reads
it). -/
def markTp1Hit : Option ActiveDetails → Option ActiveDetails
  | some d => some { d with isTp1Hit := true }
  | none => none

/-- Step 3a of `_on_new_candle`: the TP1 partial close.  `some r` is an early
return with result `r`; `none` falls through to the opposite-signal check.
When the cached `tp1_price` is Python `None` (the confirmation payload never
carries one), `tp1_price > 0` raises `TypeError` and the handler aborts via
its outer `except` — an early return with nothing published. -/
def tp1Step (cfg : EngineConfig) (s : EngineState) (env : CandleEnv)
    (syncRan : Bool) : Option CandleResult :=
  let isTp1Hit := match s.details with | some d => d.isTp1Hit | none => false
  if isTp1Hit then none
  else if ¬ (cfg.tp1RR > 0) then none
  else
    match s.details with
    | none => none
    | some d =>
      match d.tp1Price with
      | none => some ⟨s, [], syncRan⟩
      | some tp1 =>
        if tp1 > 0 then
          if (env.position.side = some "Buy" ∧ env.lastRow.high ≥ tp1) ∨
             (env.position.side = some "Sell" ∧ env.lastRow.low ≤ tp1) then
            let closeQty := pyRound (env.position.size * cfg.tp1ClosePerc) 3
            if closeQty < minOrderQty then
              some ⟨{ s with details := markTp1Hit s.details }, [], syncRan⟩
            else
              let r := publishCloseOrder cfg env.freshId closeQty
                  ((env.position.side).getD "") true
              let pend : PendingOrder :=
                ⟨r.1, env.now, "tp1_partial_close", some env.position.posIdx⟩
              some ⟨{ s with pendingOrder := some pend }, r.2, syncRan⟩
          else none
        else none

/-- Step 3b of `_on_new_candle`: full close on an opposing signal.  `some r`
is an early return; `none` falls through to trailing-stop management. -/
def oppositeSignalStep (cfg : EngineConfig) (s : EngineState) (env : CandleEnv)
    (sigData : Option SignalData) (syncRan : Bool) : Option CandleResult :=
  match sigData with
  | some sig =>
    if (env.position.side = some "Buy" ∧ sig.signal = "short") ∨
       (env.position.side = some "Sell" ∧ sig.signal = "long") then
      let r := publishCloseOrder cfg env.freshId env.position.size
          ((env.position.side).getD "") false
      let pend : PendingOrder := ⟨r.1, env.now, "close_total", none⟩
      some ⟨{ s with pendingOrder := some pend }, r.2, syncRan⟩
    else none
  | none => none

/-- Step 3c of `_on_new_candle`: trailing-stop recomputation from
`ATR * multiplier`.  A long's stop is proposed at `low - offset` and only
adopted strictly above the current stop; a short's at `high + offset`, only
strictly below; a proposal inside the `0.01%`-of-entry tolerance band is
dropped (and a zero proposal is falsy in `if new_sl:`).  The existing
take-profit is preserved on the modify (`cur_tp if cur_tp else 0.0`, which
equals `cur_tp` for rationals). -/
def trailingStep (cfg : EngineConfig) (s : EngineState) (env : CandleEnv)
    (syncRan : Bool) : CandleResult :=
  let pos := env.position
  let atrOff := env.lastRow.atr * cfg.atrMultiplier
  let newSl : Option ℚ :=
    if pos.curSl > 0 then
      if pos.side = some "Buy" then
        let prop := pyRound (env.lastRow.low - atrOff) 2
        if prop > pos.curSl then some prop else none
      else if pos.side = some "Sell" then
        let prop := pyRound (env.lastRow.high + atrOff) 2
        if prop < pos.curSl then some prop else none
      else none
    else none
  match newSl with
  | some v =>
    if v = 0 then ⟨s, [], syncRan⟩
    else if |v - pos.curSl| < pos.entryPx * (1/10000) then ⟨s, [], syncRan⟩
    else
      let r := publishModifyOrder cfg env.freshId pos.posIdx v pos.curTp
      let pend : PendingOrder := ⟨r.1, env.now, "trailing_stop", none⟩
      ⟨{ s with pendingOrder := some pend }, r.2, syncRan⟩
  | none => ⟨s, [], syncRan⟩

/-- The body of `_on_new_candle` after the lock check: reject stale candles
and NaN indicators, generate the signal, query the position, then either
manage the open position (resyncing first if the engine restarted into it)
or, when flat and a signal fired, size and publish an open command. -/
def processCandle (cfg : EngineConfig) (s : EngineState) (env : CandleEnv)
    (syncRan : Bool) : CandleResult :=
  if ¬ env.candleAccepted then ⟨s, [], syncRan⟩
  else
    let sigData := generateSignal cfg.strategy env.prevRow env.lastRow
    if env.position.size > 0 then
      if s.activeOrderCid = none then
        ⟨syncPositionOnStartup s env, [], true⟩
      else
        match tp1Step cfg s env syncRan with
        | some r => r
        | none =>
          match oppositeSignalStep cfg s env sigData syncRan with
          | some r => r
          | none => trailingStep cfg s env syncRan
    else
      match sigData with
      | some sig =>
        let s1 := { s with activeOrderCid := none, details := none }
        match publishOpenOrder cfg env sig with
        | (some cid, cmds) =>
          ⟨{ s1 with pendingOrder := some ⟨cid, env.now, "open", none⟩ },
           cmds, syncRan⟩
        | (none, cmds) => ⟨s1, cmds, syncRan⟩
      | none => ⟨s, [], syncRan⟩

/-- `TradingEngine._on_new_candle`: with a pending command the handler
returns immediately unless the command has been pending longer than
`PENDING_ORDER_TIMEOUT`, in which case the lock is force-cleared and a
reconciliation pass runs before the candle is processed. -/
def onNewCandle (cfg : EngineConfig) (s : EngineState) (env : CandleEnv) :
    CandleResult :=
  match s.pendingOrder with
  | some p =>
    if env.now - p.timestamp > pendingOrderTimeout then
      processCandle cfg
        (syncPositionOnStartup { s with pendingOrder := none } env) env true
    else ⟨s, [], false⟩
  | none => processCandle cfg s env false

/-! ## Decision Engine: order-update handler
    (`TradingEngine._on_order_update`) -/

/-- A message received on `orders:update`, with the keys the engine reads.
The gateway's `_publish_update` never includes `entry_price` / `tp1_price`
keys, so those fields are `none` for events it produces. -/
structure UpdateMsg where
  cid : String
  status : String
  avgPrice : ℚ := 0
  qty : Option ℚ := none
  errorMsg : Option String := none
  entryPrice : Option ℚ := none
  tp1Price : Option ℚ := none
  deriving Repr

/-- Environment of one update-handler invocation. -/
structure UpdateEnv where
  now : ℚ
  freshId : String := "0000"
  deriving Repr

/-- Result of one update-handler invocation. -/
structure UpdateResult where
  state : EngineState
  commands : List Command
  deriving Repr

/-- `TradingEngine._on_order_update`, the TP1 state machine: updates for a
cid other than the locked one are ignored; a `Filled` confirmation of an
open records the position details and unlocks; a `Filled` confirmation of
the TP1 partial close publishes the move-stop-to-breakeven modify (when
configured and an entry price is cached and non-zero) and re-locks on its
cid, else marks TP1 hit and unlocks; a `Filled` close-total clears the
position cache and unlocks; `Modified` unlocks; `Rejected` / `Cancelled` /
`failed` unlock and invalidate the active cid so the next candle forces a
resync. -/
def onOrderUpdate (cfg : EngineConfig) (s : EngineState) (env : UpdateEnv)
    (msg : UpdateMsg) : UpdateResult :=
  match s.pendingOrder with
  | none => ⟨s, []⟩
  | some p =>
    if msg.cid ≠ p.cid then ⟨s, []⟩
    else if msg.status = "Filled" then
      if p.action = "open" then
        ⟨{ s with activeOrderCid := some msg.cid,
                  details := some ⟨msg.entryPrice, msg.tp1Price, false⟩,
                  pendingOrder := none }, []⟩
      else if p.action = "tp1_partial_close" then
        let posIdx := p.posIdx.getD 0
        let entryPrice : Option ℚ :=
          match s.details with | some d => d.entryPrice | none => none
        match entryPrice with
        | some ep =>
          if cfg.moveSlToBe ∧ ep ≠ 0 then
            let r := publishModifyOrder cfg env.freshId posIdx ep 0
            let pend : PendingOrder := ⟨r.1, env.now, "tp1_move_sl_be", none⟩
            ⟨{ s with pendingOrder := some pend,
                      details := markTp1Hit s.details }, r.2⟩
          else
            ⟨{ s with details := markTp1Hit s.details,
                      pendingOrder := none }, []⟩
        | none =>
          ⟨{ s with details := markTp1Hit s.details,
                    pendingOrder := none }, []⟩
      else if p.action = "close_total" then
        ⟨{ s with activeOrderCid := none, details := none,
                  pendingOrder := none }, []⟩
      else ⟨s, []⟩
    else if msg.status = "Modified" then
      ⟨{ s with pendingOrder := none }, []⟩
    else if msg.status = "Rejected" ∨ msg.status = "Cancelled" ∨
        msg.status = "failed" then
      ⟨{ s with pendingOrder := none, activeOrderCid := none }, []⟩
    else ⟨s, []⟩

/-! ## Decision Engine: message-driven trace semantics -/

/-- A message delivered to the Decision Engine's dispatch loop (the only
entry points of the process: `run` subscribes exactly `_on_new_candle` and
`_on_order_update`; no timer-driven transition exists). -/
inductive EngineMsg where
  | candle (env : CandleEnv)
  | orderUpdate (env : UpdateEnv) (msg : UpdateMsg)

/-- One dispatch step of the Decision Engine. -/
def engineStep (cfg : EngineConfig) (s : EngineState) : EngineMsg → EngineState
  | .candle env => (onNewCandle cfg s env).state
  | .orderUpdate env msg => (onOrderUpdate cfg s env msg).state

/-- The state after a sequence of received messages; with no messages the
state never changes. -/
def runEngine (cfg : EngineConfig) (s : EngineState) (msgs : List EngineMsg) :
    EngineState :=
  msgs.foldl (engineStep cfg) s

/-! ## Concrete instances used by counterexamples and witnesses -/

/-- A store holding one `Filled` (terminal) open order. -/
def exDbFilled : OrderDb :=
  [{ client_order_id := "bot_open_a1", symbol := "BTCUSDT", side := "Buy",
     status := "Filled" }]

/-- A stale push event carrying the older status `New` for that order. -/
def exEvStaleNew : WsOrder :=
  { symbol := "BTCUSDT", orderLinkId := "bot_open_a1", orderStatus := "New",
    orderId := "E1" }

/-- A store holding one `Cancelled` (terminal) order. -/
def exDbCancelled : OrderDb :=
  [{ client_order_id := "bot_open_b2", symbol := "BTCUSDT", side := "Sell",
     status := "Cancelled" }]

/-- A stale `PartiallyFilled` push event for that order. -/
def exEvStalePartial : WsOrder :=
  { symbol := "BTCUSDT", orderLinkId := "bot_open_b2",
    orderStatus := "PartiallyFilled", orderId := "E2" }

/-- An open order awaiting its fill, with a TP1 risk/reward of 2 configured,
stop 49000 and a TP1 price still derived from the entry estimate 50000. -/
def exRowTp1 : OrderRow :=
  { client_order_id := "bot_open_c5", symbol := "BTCUSDT", side := "Buy",
    status := "Submitted", qty := 1, stop_loss := some 49000,
    entry_price_estimate := some 50000, tp1_price := some 52000,
    tp1_rr := some 2 }

/-- Its `Filled` push event with actual average fill price 50500. -/
def exEvFilled : WsOrder :=
  { symbol := "BTCUSDT", orderLinkId := "bot_open_c5",
    orderStatus := "Filled", orderId := "E5", avgPrice := 50500 }

/-- A new-order command row. -/
def exOrderNew : OrderRow :=
  { client_order_id := "bot_open_c3", symbol := "BTCUSDT", side := "Buy",
    qty := 1, stop_loss := some 49000 }

/-- An exchange that accepts every submission. -/
def exApiAccepts : ℕ → Except ApiException ApiResponse :=
  fun _ => .ok { retCode := 0, orderId := some "E3" }

/-- Engine configuration: 1% risk per trade, ATR multiplier 1, ADX
threshold 20, live (non-shadow) mode, no TP1. -/
def exCfg : EngineConfig :=
  { strategy := { adxThreshold := 20 }, riskPerTrade := 1, atrMultiplier := 1 }

/-- Previous indicator row: short EMA still below the long EMA. -/
def exPrevRow : IndicatorRow :=
  { close := 50050, low := 49950, high := 50150, emaShort := 99,
    emaLong := 100, rsi := 55, regime := 49000, atr := 100, adx := 30 }

/-- Signal candle: EMA cross-up, RSI 60 > 50, close above the regime EMA,
ADX 30 above the threshold, low 50000, ATR 100. -/
def exLastRow : IndicatorRow :=
  { close := 50100, low := 50000, high := 50200, emaShort := 101,
    emaLong := 100, rsi := 60, regime := 49000, atr := 100, adx := 30 }

/-- Candle environment for the flat-entry scenario: live price 50200,
balance 10000, no open position. -/
def exEnvFlat : CandleEnv :=
  { now := 1000, livePrice := some 50200, balance := 10000,
    prevRow := exPrevRow, lastRow := exLastRow }

/-- A non-signal candle row (no EMA cross). -/
def exRowNoCross : IndicatorRow :=
  { close := 50100, low := 50000, high := 50200, emaShort := 100,
    emaLong := 100, rsi := 60, regime := 49000, atr := 100, adx := 30 }

/-- Candle environment while long 0.2 BTC from 48000 with current stop
49000: the trailing proposal is `low - ATR * mult = 49900`. -/
def exEnvTrailing : CandleEnv :=
  { now := 1000,
    position := { size := 1/5, side := some "Buy", entryPx := 48000,
                  posIdx := 0, curSl := 49000, curTp := 0 },
    prevRow := exRowNoCross, lastRow := exRowNoCross }

/-- Engine state while managing that long (TP1 already done). -/
def exStateInPos : EngineState :=
  { activeOrderCid := some "bot_open_x",
    details := some { entryPrice := some 48000, tp1Price := none,
                      isTp1Hit := true } }

/-- Engine state with a command issued at t = 0 still pending. -/
def exStatePending : EngineState :=
  { pendingOrder := some ⟨"bot_open_x", 0, "open", none⟩ }

/-- An expired-pending candle environment (now = 1000, no position, no
signal). -/
def exEnvExpired : CandleEnv :=
  { now := 1000, prevRow := exRowNoCross, lastRow := exRowNoCross }

/-- An order update for some other command id, received at t = 1000. -/
def exMsgOtherCid : UpdateMsg :=
  { cid := "bot_mod_other", status := "Modified" }

/-- A candle environment arriving 50 s after the pending command was
issued — inside the 120 s timeout. -/
def exEnvFresh : CandleEnv :=
  { now := 50, prevRow := exRowNoCross, lastRow := exRowNoCross }

/-! ## Theorems -/

/-- C9: a non-retryable exchange error (parameter / permission / signature /
insufficient-balance codes such as 110020, already-filled code 110017, and
any non-rate-limit 4xx) makes exactly one API attempt and surfaces the
failure immediately, while transport/5xx failures and rate-limit signals
(`ret_code` 10006 or HTTP 429) are retried with exponential backoff (waits
2 then 4 seconds) up to the bounded attempt count of 3. -/
theorem retry_policy_classification_and_attempts
    (e : ApiException) (behavior : ℕ → Except ApiException ApiResponse)
    (hfail : ∀ k, behavior k = .error e) :
    (isRetryableApiError e = false →
      runApiCallWithRetry behavior = ⟨1, [], .error e⟩)
    ∧ (isRetryableApiError e = true →
      runApiCallWithRetry behavior = ⟨3, [2, 4], .error e⟩)
    ∧ isRetryableApiError (.invalidRequest (some 110020) (some 400)) = false
    ∧ (∀ c ∈ nonRetryableErrorCodes, ∀ sc : Option ℕ, sc ≠ some 429 →
        isRetryableApiError (.invalidRequest (some c) sc) = false)
    ∧ (∀ sc, isRetryableApiError (.failedRequest sc) = true)
    ∧ (∀ sc, isRetryableApiError (.invalidRequest (some 10006) sc) = true)
    ∧ (∀ rc, isRetryableApiError (.invalidRequest rc (some 429)) = true) := by
  refine ⟨?_, ?_, by decide, ?_, ?_, ?_, ?_⟩
  · intro hr
    simp [runApiCallWithRetry, retryRun, hfail, hr]
  · intro hr
    simp [runApiCallWithRetry, retryRun, hfail, hr]
    constructor <;> norm_num [retryWait, waitExponential]
  · intro c hc sc hsc
    fin_cases hc <;>
      simp [isRetryableApiError, nonRetryableErrorCodes, hsc]
  · intro sc; rfl
  · intro sc; simp [isRetryableApiError]
  · intro rc; simp [isRetryableApiError]

/-- Witness for C9: the insufficient-balance code 110020 is classified
non-retryable and a call that raises it makes exactly one attempt. -/
theorem retry_policy_classification_and_attempts_witness :
    runApiCallWithRetry
        (fun _ => (.error (.invalidRequest (some 110020) (some 400)) :
          Except ApiException ApiResponse)) =
      ⟨1, [], .error (.invalidRequest (some 110020) (some 400))⟩ :=
  (retry_policy_classification_and_attempts
    (.invalidRequest (some 110020) (some 400)) _ (fun _ => rfl)).1 (by decide)

/-- All-skipped position lists scan to `none` (no positive-size entry). -/
lemma scanPositions_all_skipped (l : List PosEntry)
    (h : ∀ p ∈ l, positiveSize p.size = .ok none) :
    scanPositions l = .ok none := by
  induction l with
  | nil => rfl
  | cons p rest ih =>
    have hp := h p (List.mem_cons_self p rest)
    have hr := ih (fun q hq => h q (List.mem_cons_of_mem p hq))
    simp only [scanPositions, hp, hr]
    rfl

/-- C10 (implicit): `_get_current_position` is total over API outcomes and
collapses every failure to the flat tuple: a raised API/transport exception,
a non-zero `retCode`, a malformed entry (a `float` parse failure while
scanning), and a genuinely position-free list (every entry skipped by the
`size` guard) all yield exactly `(0.0, None, 0.0, 0, 0.0, 0.0)` — the same
value returned for an account with no open position. -/
theorem position_query_collapses_failures_to_flat :
    (∀ e, getCurrentPosition (.error e) = flatPosition)
    ∧ (∀ r : PosResponse, r.retCode ≠ 0 →
        getCurrentPosition (.ok r) = flatPosition)
    ∧ (∀ r : PosResponse, scanPositions r.list = .error () →
        getCurrentPosition (.ok r) = flatPosition)
    ∧ (∀ r : PosResponse, (∀ p ∈ r.list, positiveSize p.size = .ok none) →
        getCurrentPosition (.ok r) = flatPosition) := by
  refine ⟨fun e => rfl, fun r h => by simp [getCurrentPosition, h], ?_, ?_⟩
  · intro r h
    simp [getCurrentPosition, h]
  · intro r h
    simp [getCurrentPosition, scanPositions_all_skipped r.list h]

/-- Witness for C10: a transport error, a rejected response, a malformed
size field, and an empty account all return the flat tuple. -/
theorem position_query_collapses_failures_to_flat_witness :
    getCurrentPosition (.error (.failedRequest 503)) = flatPosition
    ∧ getCurrentPosition (.ok { retCode := 10001 }) = flatPosition
    ∧ getCurrentPosition (.ok { retCode := 0, list := [{ size := .bad }] })
        = flatPosition
    ∧ getCurrentPosition
        (.ok { retCode := 0, list := [{ size := .num 0 }, { size := .empty }] })
        = flatPosition :=
  ⟨position_query_collapses_failures_to_flat.1 (.failedRequest 503),
   position_query_collapses_failures_to_flat.2.1 { retCode := 10001 } (by decide),
   position_query_collapses_failures_to_flat.2.2.1
     { retCode := 0, list := [{ size := .bad }] } rfl,
   position_query_collapses_failures_to_flat.2.2.2
     { retCode := 0, list := [{ size := .num 0 }, { size := .empty }] }
     (by intro p hp; fin_cases hp <;> rfl)⟩

/-- A found row carries the looked-up cid. -/
lemma findOrder_cid {db : OrderDb} {cid : String} {row : OrderRow}
    (h : findOrder db cid = some row) : row.client_order_id = cid := by
  have := List.find?_some h
  simpa using this

/-- Committing an updated row makes it the row found under its cid (when a
row with that cid was present). -/
lemma findOrder_updateOrder (db : OrderDb) (row' : OrderRow)
    (h : (findOrder db row'.client_order_id).isSome) :
    findOrder (updateOrder db row') row'.client_order_id = some row' := by
  induction db with
  | nil => simp [findOrder] at h
  | cons a l ih =>
    by_cases hc : a.client_order_id = row'.client_order_id
    · simp [findOrder, updateOrder, List.find?_cons, hc]
    · have h' : (findOrder l row'.client_order_id).isSome := by
        simpa [findOrder, List.find?_cons, hc] using h
      have := ih h'
      simpa [findOrder, updateOrder, List.find?_cons, hc] using this

/-- `updateOrder` never changes how many rows exist under any cid. -/
lemma countOrders_updateOrder (db : OrderDb) (row : OrderRow) (cid : String) :
    countOrders (updateOrder db row) cid = countOrders db cid := by
  unfold countOrders updateOrder
  rw [← List.countP_eq_length_filter, ← List.countP_eq_length_filter,
    List.countP_map]
  refine List.countP_congr ?_
  intro o _
  by_cases hc : o.client_order_id = row.client_order_id
  · simp [Function.comp, hc]
  · simp [Function.comp, hc]

/-- An absent cid has zero rows. -/
lemma countOrders_eq_zero (db : OrderDb) (cid : String)
    (h : findOrder db cid = none) : countOrders db cid = 0 := by
  unfold countOrders
  rw [← List.countP_eq_length_filter, List.countP_eq_zero]
  intro a ha
  have := List.find?_eq_none.mp h a ha
  simpa using this

/-- Appending a row adds one to its cid count. -/
lemma countOrders_append (db : OrderDb) (row : OrderRow) :
    countOrders (db ++ [row]) row.client_order_id =
      countOrders db row.client_order_id + 1 := by
  simp [countOrders, List.filter_append]

/-- Looking up a cid absent from the front list falls through to the
appended rows. -/
lemma findOrder_append_of_none (db : OrderDb) (rest : OrderDb) (cid : String)
    (h : findOrder db cid = none) :
    findOrder (db ++ rest) cid = findOrder rest cid := by
  induction db with
  | nil => rfl
  | cons a l ih =>
    by_cases hc : a.client_order_id = cid
    · exfalso
      simp only [findOrder] at h
      rw [List.find?_cons_of_pos _ (by simp [hc])] at h
      exact Option.noConfusion h
    · simp only [findOrder] at h ⊢
      rw [List.find?_cons_of_neg _ (by simp [hc])] at h
      rw [List.cons_append, List.find?_cons_of_neg _ (by simp [hc])]
      simpa only [findOrder] using ih (by simpa only [findOrder] using h)

/-- A submission whose cid already has a row is ignored: no store change,
no API attempt, nothing published. -/
lemma executeNewOrder_existing (db : OrderDb) (o : OrderRow)
    (behavior : ℕ → Except ApiException ApiResponse) (r : OrderRow)
    (h : findOrder db o.client_order_id = some r) :
    executeNewOrder db o behavior = ⟨db, [], 0⟩ := by
  unfold executeNewOrder
  rw [h]

/-- C2 counterexample: the order-stream handler has no regression guard — a
stored terminal `Filled` row hit by a stale push event carrying the older
status `New` ends up with status `New`, not `Filled`. -/
theorem terminal_status_regression_counterexample :
    "Filled" ∈ terminalStatuses
    ∧ (handleOrderUpdate "BTCUSDT" exDbFilled exEvStaleNew).db.map
        OrderRow.status = ["New"]
    ∧ "New" ≠ "Filled" := by
  decide

/-- C2 as amended: the handler overwrites the stored status (terminal or
not) with any incoming status that differs from it, writing the event's
`orderId` alongside; the only exception is a `Filled` event with positive
average price, which aborts on the model's missing `entry_price` attribute
and leaves the row unchanged.  No event is ever published from this path
(the publish block reads the same missing attribute after the commit). -/
theorem terminal_status_overwritten_by_stale_status
    (sym : String) (db : OrderDb) (ev : WsOrder) (row : OrderRow)
    (hfind : findOrder db ev.orderLinkId = some row)
    (hterm : row.status ∈ terminalStatuses)
    (hsym : ev.symbol = sym)
    (hbot : strStartsWith ev.orderLinkId "bot_" = true)
    (hne : ev.orderStatus ≠ row.status)
    (hnf : ¬ (ev.orderStatus = "Filled" ∧ ev.avgPrice > 0)) :
    findOrder (handleOrderUpdate sym db ev).db ev.orderLinkId =
      some { row with status := ev.orderStatus, order_id := some ev.orderId }
    ∧ (handleOrderUpdate sym db ev).published = [] := by
  have hcid : row.client_order_id = ev.orderLinkId := findOrder_cid hfind
  have hrow : row.status ≠ ev.orderStatus := fun h => hne h.symm
  have hout : handleOrderUpdate sym db ev =
      ⟨updateOrder db { row with status := ev.orderStatus, order_id := some ev.orderId }, []⟩ := by
    unfold handleOrderUpdate
    rw [if_neg (by simp [hsym]), if_neg (by simp [hbot])]
    simp only [hfind]
    rw [if_pos (Or.inl hrow), if_neg hnf]
  rw [hout]
  refine ⟨?_, rfl⟩
  have h2 : ({ row with status := ev.orderStatus, order_id := some ev.orderId } : OrderRow).client_order_id = ev.orderLinkId := hcid
  rw [← h2]
  exact findOrder_updateOrder db _ (by rw [h2, hfind]; rfl)

/-- Witness for the amended C2: a stored terminal `Cancelled` row hit by a
stale `PartiallyFilled` event ends up with status `PartiallyFilled`. -/
theorem terminal_status_overwritten_by_stale_status_witness :
    findOrder (handleOrderUpdate "BTCUSDT" exDbCancelled exEvStalePartial).db
        exEvStalePartial.orderLinkId =
      some { client_order_id := "bot_open_b2", symbol := "BTCUSDT",
             side := "Sell", status := "PartiallyFilled",
             order_id := some "E2" }
    ∧ (handleOrderUpdate "BTCUSDT" exDbCancelled exEvStalePartial).published
        = [] :=
  terminal_status_overwritten_by_stale_status "BTCUSDT" exDbCancelled
    exEvStalePartial
    { client_order_id := "bot_open_b2", symbol := "BTCUSDT", side := "Sell",
      status := "Cancelled" }
    rfl (by decide) rfl rfl (by decide) (by decide)

/-- C5: on a `Filled` push event for an open order with `tp1_rr = 2`
configured, entry estimate 50000, stop 49000 and actual average fill 50500,
the specified recomputation would persist
`tp1_price = avg_fill + 2 * (avg_fill - stop) = 53500`; the code instead
aborts on the `Order` model's missing `entry_price` attribute, rolls the
update back, publishes nothing, and leaves `tp1_price` at the
estimate-derived 52000 — the recomputation the schema's own `tp1_rr` field
comment calls for never happens. -/
theorem tp1_price_not_recomputed_on_fill :
    handleOrderUpdate "BTCUSDT" [exRowTp1] exEvFilled = ⟨[exRowTp1], []⟩
    ∧ (50500 : ℚ) + 2 * (50500 - 49000) = 53500
    ∧ ((handleOrderUpdate "BTCUSDT" [exRowTp1] exEvFilled).db.map
        OrderRow.tp1_price) = [some 52000]
    ∧ some (52000 : ℚ) ≠ some (53500 : ℚ) :=
  ⟨by decide, by norm_num, by decide, by norm_num⟩

/-- C3 counterexample: submitting the same `client_order_id` twice yields
exactly one persisted row and makes no second API attempt, but the second
attempt is **silently ignored** — no duplicate-failure event appears on
`orders:update`, contrary to the claim. -/
theorem duplicate_submission_counterexample :
    countOrders
        (executeNewOrder (executeNewOrder [] exOrderNew exApiAccepts).db
          exOrderNew exApiAccepts).db "bot_open_c3" = 1
    ∧ (executeNewOrder (executeNewOrder [] exOrderNew exApiAccepts).db
        exOrderNew exApiAccepts).published = []
    ∧ (executeNewOrder (executeNewOrder [] exOrderNew exApiAccepts).db
        exOrderNew exApiAccepts).apiAttempts = 0 := by
  refine ⟨?_, ?_, ?_⟩ <;> decide

/-- C3 as amended: a first submission of a fresh `client_order_id` that the
exchange accepts persists exactly one row; a second submission with the
same id changes nothing, makes zero API attempts, and publishes no event at
all — the duplicate is logged and ignored rather than surfaced as a
failure event. -/
theorem duplicate_submission_single_row_no_event
    (db : OrderDb) (o : OrderRow)
    (behavior behavior2 : ℕ → Except ApiException ApiResponse)
    (resp : ApiResponse)
    (hnone : findOrder db o.client_order_id = none)
    (hok : ∀ k, behavior k = .ok resp) (hcode : resp.retCode = 0) :
    countOrders (executeNewOrder db o behavior).db o.client_order_id = 1
    ∧ executeNewOrder (executeNewOrder db o behavior).db o behavior2 =
        ⟨(executeNewOrder db o behavior).db, [], 0⟩ := by
  have hrun : runApiCallWithRetry behavior = ⟨1, [], .ok resp⟩ := by
    simp [runApiCallWithRetry, retryRun, hok]
  have hstep : executeNewOrder db o behavior =
      ⟨updateOrder (db ++ [{ o with status := "pending_submission" }])
        { o with status := "Submitted", order_id := resp.orderId }, [], 1⟩ := by
    unfold executeNewOrder
    rw [hnone]
    simp [hrun, hcode]
  have hfind1 : findOrder (db ++ [{ o with status := "pending_submission" }])
      o.client_order_id = some { o with status := "pending_submission" } := by
    rw [findOrder_append_of_none db _ _ hnone]
    simp [findOrder, List.find?_cons]
  have hfind2 : findOrder (executeNewOrder db o behavior).db
      o.client_order_id =
      some { o with status := "Submitted", order_id := resp.orderId } := by
    rw [hstep]
    exact findOrder_updateOrder _ _ (by rw [hfind1]; rfl)
  constructor
  · rw [hstep, countOrders_updateOrder]
    have h2 := countOrders_append db { o with status := "pending_submission" }
    simp only [] at h2
    rw [h2, countOrders_eq_zero db o.client_order_id hnone]
  · exact executeNewOrder_existing _ _ _ _ hfind2

/-- Evaluate a rational floor from its bracketing inequalities. -/
lemma floor_eval (q : ℚ) (n : ℤ) (h1 : (n : ℚ) ≤ q) (h2 : q < n + 1) :
    ⌊q⌋ = n := by
  rw [Int.floor_eq_iff]
  exact ⟨h1, h2⟩

/-- `pyRound` when the scaled value sits strictly below the halfway point. -/
lemma pyRound_eval_down (q : ℚ) (nd : ℕ) (n : ℤ)
    (h1 : ⌊q * 10 ^ nd⌋ = n) (h2 : q * 10 ^ nd - n < 1/2) :
    pyRound q nd = (n : ℚ) / 10 ^ nd := by
  unfold pyRound roundHalfEven
  rw [h1, if_pos h2]

/-- `pyRound` when the scaled value sits strictly above the halfway point. -/
lemma pyRound_eval_up (q : ℚ) (nd : ℕ) (n : ℤ)
    (h1 : ⌊q * 10 ^ nd⌋ = n) (h2 : 1/2 < q * 10 ^ nd - n) :
    pyRound q nd = ((n : ℚ) + 1) / 10 ^ nd := by
  unfold pyRound roundHalfEven
  rw [h1, if_neg (by linarith), if_pos h2]
  push_cast
  ring_nf

/-- Rounding an integer value is the identity. -/
lemma roundHalfEven_intCast (z : ℤ) : roundHalfEven (z : ℚ) = z := by
  unfold roundHalfEven
  rw [Int.floor_intCast]
  simp

/-- `round` is idempotent, so the modify publisher's second rounding leaves
the trailing-stop proposal unchanged. -/
lemma pyRound_idem (q : ℚ) (nd : ℕ) :
    pyRound (pyRound q nd) nd = pyRound q nd := by
  unfold pyRound
  rw [div_mul_cancel₀ _ (by positivity : (10 : ℚ) ^ nd ≠ 0),
    roundHalfEven_intCast]

/-- The successful path of `_calculate_position_size`. -/
lemma calculatePositionSize_some (cfg : EngineConfig)
    (balance entry stop mult : ℚ)
    (hbal : ¬ balance < cfg.minBalance) (hrisk : 0 < cfg.riskPerTrade)
    (hentry : 0 < entry) (hstop : 0 < stop)
    (hd : ¬ |entry - stop| = 0)
    (h : ¬ min (balance * (cfg.riskPerTrade / 100) * mult)
        (balance * (95/100)) / |entry - stop| < minOrderQty) :
    calculatePositionSize cfg balance entry stop mult =
      some (pyRound (min (balance * (cfg.riskPerTrade / 100) * mult)
        (balance * (95/100)) / |entry - stop|) 3) := by
  have h1 : ¬ cfg.riskPerTrade ≤ 0 := not_le.mpr hrisk
  have h2 : ¬ (entry ≤ 0 ∨ stop ≤ 0) := by
    push_neg
    exact ⟨hentry, hstop⟩
  simp only [calculatePositionSize, if_neg hbal, if_neg h1, if_neg h2,
    if_neg hd, if_neg h]

/-- The too-small path of `_calculate_position_size`. -/
lemma calculatePositionSize_none_small (cfg : EngineConfig)
    (balance entry stop mult : ℚ)
    (hbal : ¬ balance < cfg.minBalance) (hrisk : 0 < cfg.riskPerTrade)
    (hentry : 0 < entry) (hstop : 0 < stop)
    (hd : ¬ |entry - stop| = 0)
    (h : min (balance * (cfg.riskPerTrade / 100) * mult)
        (balance * (95/100)) / |entry - stop| < minOrderQty) :
    calculatePositionSize cfg balance entry stop mult = none := by
  have h1 : ¬ cfg.riskPerTrade ≤ 0 := not_le.mpr hrisk
  have h2 : ¬ (entry ≤ 0 ∨ stop ≤ 0) := by
    push_neg
    exact ⟨hentry, hstop⟩
  simp only [calculatePositionSize, if_neg hbal, if_neg h1, if_neg h2,
    if_neg hd, if_pos h]

/-- Witness for the amended C3: submitting `bot_open_c3` twice against an
accepting exchange leaves one row; the second call is a no-op with no
published event. -/
theorem duplicate_submission_single_row_no_event_witness :
    countOrders (executeNewOrder [] exOrderNew exApiAccepts).db
      "bot_open_c3" = 1
    ∧ executeNewOrder (executeNewOrder [] exOrderNew exApiAccepts).db
        exOrderNew exApiAccepts =
      ⟨(executeNewOrder [] exOrderNew exApiAccepts).db, [], 0⟩ :=
  duplicate_submission_single_row_no_event [] exOrderNew exApiAccepts
    exApiAccepts { retCode := 0, orderId := some "E3" } rfl (fun _ => rfl) rfl

/-- C6 counterexample: the computed quantity is `round(qty, 3)` — Python's
half-even rounding — not a floor to the quantity step.  With balance 10000,
1% risk, entry 100000 and stop 36000 the raw quantity is `1/640 = 0.0015625`;
flooring to the 0.001 step gives 0.001, but the code returns 0.002. -/
theorem position_size_rounding_counterexample :
    calculatePositionSize exCfg 10000 100000 36000 1 = some (1/500)
    ∧ specFlooredQty (min ((10000 : ℚ) * (exCfg.riskPerTrade / 100) * 1)
        (10000 * (95/100)) / |(100000 : ℚ) - 36000|) = 1/1000
    ∧ (1/500 : ℚ) ≠ 1/1000 := by
  have hq : min ((10000 : ℚ) * (exCfg.riskPerTrade / 100) * 1)
      (10000 * (95/100)) / |(100000 : ℚ) - 36000| = 1/640 := by
    norm_num [exCfg, min_def, abs_of_pos]
  have hfl : (⌊(1/640 : ℚ) * 10 ^ 3⌋ : ℤ) = 1 :=
    floor_eval _ _ (by norm_num) (by norm_num)
  have hr : pyRound (1/640) 3 = 1/500 := by
    rw [pyRound_eval_up _ 3 1 hfl (by norm_num)]
    norm_num
  refine ⟨?_, ?_, by norm_num⟩
  · rw [calculatePositionSize_some exCfg 10000 100000 36000 1
      (by norm_num [exCfg]) (by norm_num [exCfg]) (by norm_num) (by norm_num)
      (by norm_num) (by rw [hq]; norm_num [minOrderQty]), hq, hr]
  · rw [specFlooredQty, hq]
    rw [show (⌊(1/640 : ℚ) * 1000⌋ : ℤ) = 1 from
      floor_eval _ _ (by norm_num) (by norm_num)]
    norm_num

/-- C6 as amended: for an entry attempt with balance `B` at or above the
configured minimum, risk fraction `r > 0`, conviction multiplier `m`, entry
`e > 0` and stop `s > 0` with `e ≠ s`, the computed size is
`min(B*r*m, B*0.95) / |e - s|` **rounded half-to-even** to the 3-decimal
quantity step (not floored), and the trade is rejected when the *unrounded*
quantity is below the 0.001 minimum or when the live entry price cannot be
retrieved (no fallback to candle data); risk 1% on balance 10000 with entry
50000 and stop 49000 yields quantity 0.1. -/
theorem position_sizing_rounded_and_failsafes
    (cfg : EngineConfig) (balance entry stop mult : ℚ)
    (hbal : ¬ balance < cfg.minBalance) (hrisk : 0 < cfg.riskPerTrade)
    (hentry : 0 < entry) (hstop : 0 < stop) (hne : entry ≠ stop) :
    (¬ min (balance * (cfg.riskPerTrade / 100) * mult) (balance * (95/100))
        / |entry - stop| < minOrderQty →
      calculatePositionSize cfg balance entry stop mult =
        some (pyRound (min (balance * (cfg.riskPerTrade / 100) * mult)
          (balance * (95/100)) / |entry - stop|) 3))
    ∧ (min (balance * (cfg.riskPerTrade / 100) * mult) (balance * (95/100))
        / |entry - stop| < minOrderQty →
      calculatePositionSize cfg balance entry stop mult = none)
    ∧ (∀ env : CandleEnv, ∀ sig : SignalData, env.livePrice = none →
        publishOpenOrder cfg env sig = (none, []))
    ∧ calculatePositionSize exCfg 10000 50000 49000 1 = some (1/10) := by
  have hd : ¬ |entry - stop| = 0 := by
    simp [sub_eq_zero, hne]
  refine ⟨?_, ?_, ?_, ?_⟩
  · intro h
    exact calculatePositionSize_some cfg balance entry stop mult hbal hrisk
      hentry hstop hd h
  · intro h
    exact calculatePositionSize_none_small cfg balance entry stop mult hbal
      hrisk hentry hstop hd h
  · intro env sig h
    simp [publishOpenOrder, h]
  · have hq : min ((10000 : ℚ) * (exCfg.riskPerTrade / 100) * 1)
        (10000 * (95/100)) / |(50000 : ℚ) - 49000| = 1/10 := by
      norm_num [exCfg, min_def, abs_of_pos]
    have hr : pyRound (1/10) 3 = 1/10 := by
      rw [pyRound_eval_down _ 3 100 (floor_eval _ _ (by norm_num) (by norm_num))
        (by norm_num)]
      norm_num
    rw [calculatePositionSize_some exCfg 10000 50000 49000 1
      (by norm_num [exCfg]) (by norm_num [exCfg]) (by norm_num) (by norm_num)
      (by norm_num) (by rw [hq]; norm_num [minOrderQty]), hq, hr]

/-- Witness for the amended C6: the 1%-risk example evaluates through the
successful branch to quantity 0.1, and the missing-live-price fail-safe
publishes nothing. -/
theorem position_sizing_rounded_and_failsafes_witness :
    calculatePositionSize exCfg 10000 50000 49000 1 = some (1/10)
    ∧ publishOpenOrder exCfg
        { now := 0, livePrice := none, prevRow := exPrevRow,
          lastRow := exLastRow }
        { signal := "long", slBasePrice := 50000, atrValue := 100,
          riskMultiplier := 1, adxValue := 30 } = (none, []) :=
  ⟨(position_sizing_rounded_and_failsafes exCfg 10000 50000 49000 1
      (by norm_num [exCfg]) (by norm_num [exCfg]) (by norm_num) (by norm_num)
      (by norm_num)).2.2.2,
   (position_sizing_rounded_and_failsafes exCfg 10000 50000 49000 1
      (by norm_num [exCfg]) (by norm_num [exCfg]) (by norm_num) (by norm_num)
      (by norm_num)).2.2.1 _ _ rfl⟩

/-- The long branch of `generate_signal` under its four conditions. -/
lemma generateSignal_long (p : StrategyParams) (prev last : IndicatorRow)
    (hcross : last.emaShort > last.emaLong)
    (hprev : prev.emaShort ≤ prev.emaLong)
    (hrsi : last.rsi > 50) (hreg : last.close > last.regime)
    (hadx : last.adx > p.adxThreshold) :
    generateSignal p prev last =
      some { signal := "long", slBasePrice := last.low, atrValue := last.atr,
             riskMultiplier :=
               if last.rsi > p.rsiConvictionThreshold then
                 p.highConvictionRiskMult
               else p.lowConvictionRiskMult,
             adxValue := last.adx } := by
  unfold generateSignal
  rw [if_pos ⟨⟨hcross, hprev⟩, hrsi, hreg, hadx⟩]

/-- The flat-and-unlocked long-entry path of the candle handler: with no
pending command, an accepted candle, no open position, the long-signal
conditions satisfied, a live price, a positive computed size, the funding
filter passing and shadow mode off, exactly one command is published — an
open on `orders:new` with side `Buy` and stop-loss the signal candle's low
rounded to 2 decimals (no ATR offset) — and the lock is set to it. -/
lemma onNewCandle_flat_long (cfg : EngineConfig) (s : EngineState)
    (env : CandleEnv) (e m q : ℚ)
    (hpend : s.pendingOrder = none)
    (hacc : env.candleAccepted = true)
    (hflat : ¬ env.position.size > 0)
    (hcross : env.lastRow.emaShort > env.lastRow.emaLong)
    (hprev : env.prevRow.emaShort ≤ env.prevRow.emaLong)
    (hrsi : env.lastRow.rsi > 50)
    (hreg : env.lastRow.close > env.lastRow.regime)
    (hadx : env.lastRow.adx > cfg.strategy.adxThreshold)
    (hlive : env.livePrice = some e)
    (hm : (if env.lastRow.rsi > cfg.strategy.rsiConvictionThreshold then
        cfg.strategy.highConvictionRiskMult
      else cfg.strategy.lowConvictionRiskMult) = m)
    (hqty : calculatePositionSize cfg env.balance e
        (pyRound env.lastRow.low 2) m = some q)
    (hq : ¬ q ≤ 0)
    (hfund : ¬ (cfg.maxNegFunding < 0 ∧ env.fundingRate < cfg.maxNegFunding))
    (hshadow : cfg.shadowMode = false) :
    ∃ c : Command, (onNewCandle cfg s env).commands = [c]
      ∧ c.channel = "orders:new"
      ∧ c.side = some "Buy"
      ∧ c.stopLoss = some (pyRound env.lastRow.low 2)
      ∧ c.qty = some q
      ∧ c.cid = "bot_open_" ++ env.freshId
      ∧ (onNewCandle cfg s env).state.pendingOrder =
          some ⟨"bot_open_" ++ env.freshId, env.now, "open", none⟩ := by
  have hsig := generateSignal_long cfg.strategy env.prevRow env.lastRow
    hcross hprev hrsi hreg hadx
  have h1 : onNewCandle cfg s env = processCandle cfg s env false := by
    unfold onNewCandle
    rw [hpend]
  rw [h1]
  unfold processCandle
  rw [if_neg (by simp [hacc]), if_neg hflat]
  simp only [hsig]
  unfold publishOpenOrder
  rw [hlive]
  simp only [hm, hqty, if_neg hq, hshadow, Bool.false_eq_true, if_false,
    eq_self_iff_true, if_true, true_and]
  rw [if_neg hfund]
  exact ⟨_, rfl, rfl, rfl, rfl, rfl, rfl, rfl⟩

/-- The signal candle's low rounds to itself at 2 decimals. -/
lemma exEnvFlat_low_round : pyRound exEnvFlat.lastRow.low 2 = 50000 := by
  have h : pyRound (50000 : ℚ) 2 = 50000 := by
    rw [pyRound_eval_down _ 2 5000000
      (floor_eval _ _ (by norm_num) (by norm_num)) (by norm_num)]
    norm_num
  simpa [exEnvFlat, exLastRow] using h

/-- Sizing in the flat-entry scenario: balance 10000, risk 1%, low-conviction
multiplier 1/2, entry 50200, stop 50000 — quantity 1/4. -/
lemma exEnvFlat_qty : calculatePositionSize exCfg exEnvFlat.balance 50200
    (pyRound exEnvFlat.lastRow.low 2) (1/2) = some (1/4) := by
  rw [exEnvFlat_low_round]
  have hbal : exEnvFlat.balance = 10000 := rfl
  rw [hbal]
  have hq : min ((10000 : ℚ) * (exCfg.riskPerTrade / 100) * (1/2))
      (10000 * (95/100)) / |(50200 : ℚ) - 50000| = 1/4 := by
    norm_num [exCfg, min_def]
  have hr : pyRound (1/4) 3 = 1/4 := by
    rw [pyRound_eval_down _ 3 250
      (floor_eval _ _ (by norm_num) (by norm_num)) (by norm_num)]
    norm_num
  rw [calculatePositionSize_some exCfg 10000 50200 50000 (1/2)
    (by norm_num [exCfg]) (by norm_num [exCfg]) (by norm_num) (by norm_num)
    (by norm_num) (by rw [hq]; norm_num [minOrderQty]), hq, hr]

/-- C7 counterexample: in the concrete flat long-signal scenario (ATR 100,
multiplier 1, signal low 50000) the single published open command carries
stop-loss 50000 — the raw candle low — while the claim's
`low - ATR * multiplier` is 49900. -/
theorem entry_stop_without_atr_offset_counterexample :
    (∃ c : Command, (onNewCandle exCfg {} exEnvFlat).commands = [c]
       ∧ c.side = some "Buy" ∧ c.stopLoss = some 50000)
    ∧ exLastRow.low - exLastRow.atr * exCfg.atrMultiplier = 49900
    ∧ some (50000 : ℚ) ≠ some (49900 : ℚ) := by
  obtain ⟨c, hc, hch, hside, hstop, hqv, hcid, hp⟩ :=
    onNewCandle_flat_long exCfg {} exEnvFlat 50200 (1/2) (1/4) rfl rfl
      (by norm_num [exEnvFlat])
      (by norm_num [exEnvFlat, exLastRow])
      (by norm_num [exEnvFlat, exPrevRow])
      (by norm_num [exEnvFlat, exLastRow])
      (by norm_num [exEnvFlat, exLastRow])
      (by norm_num [exEnvFlat, exLastRow, exCfg])
      rfl
      (by norm_num [exEnvFlat, exLastRow, exCfg])
      exEnvFlat_qty
      (by norm_num)
      (by norm_num [exEnvFlat, exCfg])
      rfl
  refine ⟨⟨c, hc, hside, ?_⟩, by norm_num [exLastRow, exCfg], by norm_num⟩
  rw [hstop, exEnvFlat_low_round]

/-- C7 as amended: while flat and unlocked, a candle satisfying the long
conditions (EMA cross-up, RSI above 50, regime filter passed, ADX above the
threshold), with a live price, positive computed size, funding filter
passing and shadow mode off, publishes exactly one open command with
`side = Buy` — but its stop-loss is the signal candle's raw low rounded to
the price precision, with **no** `ATR * multiplier` offset applied. -/
theorem long_entry_single_buy_stop_at_low (cfg : EngineConfig)
    (s : EngineState) (env : CandleEnv) (e m q : ℚ)
    (hpend : s.pendingOrder = none)
    (hacc : env.candleAccepted = true)
    (hflat : ¬ env.position.size > 0)
    (hcross : env.lastRow.emaShort > env.lastRow.emaLong)
    (hprev : env.prevRow.emaShort ≤ env.prevRow.emaLong)
    (hrsi : env.lastRow.rsi > 50)
    (hreg : env.lastRow.close > env.lastRow.regime)
    (hadx : env.lastRow.adx > cfg.strategy.adxThreshold)
    (hlive : env.livePrice = some e)
    (hm : (if env.lastRow.rsi > cfg.strategy.rsiConvictionThreshold then
        cfg.strategy.highConvictionRiskMult
      else cfg.strategy.lowConvictionRiskMult) = m)
    (hqty : calculatePositionSize cfg env.balance e
        (pyRound env.lastRow.low 2) m = some q)
    (hq : ¬ q ≤ 0)
    (hfund : ¬ (cfg.maxNegFunding < 0 ∧ env.fundingRate < cfg.maxNegFunding))
    (hshadow : cfg.shadowMode = false) :
    ∃ c : Command, (onNewCandle cfg s env).commands = [c]
      ∧ c.channel = "orders:new"
      ∧ c.side = some "Buy"
      ∧ c.stopLoss = some (pyRound env.lastRow.low 2)
      ∧ (onNewCandle cfg s env).state.pendingOrder =
          some ⟨"bot_open_" ++ env.freshId, env.now, "open", none⟩ := by
  obtain ⟨c, hc, hch, hside, hstop, hqv, hcid, hp⟩ :=
    onNewCandle_flat_long cfg s env e m q hpend hacc hflat hcross hprev hrsi
      hreg hadx hlive hm hqty hq hfund hshadow
  exact ⟨c, hc, hch, hside, hstop, hp⟩

/-- Witness for the amended C7: the concrete flat-entry scenario publishes
exactly one Buy open command with stop 50000 (the rounded low) and locks on
its cid. -/
theorem long_entry_single_buy_stop_at_low_witness :
    ∃ c : Command, (onNewCandle exCfg {} exEnvFlat).commands = [c]
      ∧ c.channel = "orders:new"
      ∧ c.side = some "Buy"
      ∧ c.stopLoss = some (pyRound exEnvFlat.lastRow.low 2)
      ∧ (onNewCandle exCfg {} exEnvFlat).state.pendingOrder =
          some ⟨"bot_open_" ++ exEnvFlat.freshId, exEnvFlat.now, "open",
                none⟩ :=
  long_entry_single_buy_stop_at_low exCfg {} exEnvFlat 50200 (1/2) (1/4)
    rfl rfl
    (by norm_num [exEnvFlat])
    (by norm_num [exEnvFlat, exLastRow])
    (by norm_num [exEnvFlat, exPrevRow])
    (by norm_num [exEnvFlat, exLastRow])
    (by norm_num [exEnvFlat, exLastRow])
    (by norm_num [exEnvFlat, exLastRow, exCfg])
    rfl
    (by norm_num [exEnvFlat, exLastRow, exCfg])
    exEnvFlat_qty
    (by norm_num)
    (by norm_num [exEnvFlat, exCfg])
    rfl

/-- Every command a close publisher emits is on `orders:new`. -/
lemma publishCloseOrder_mem (cfg : EngineConfig) (f : String) (q : ℚ)
    (sd : String) (b : Bool) (c : Command)
    (hc : c ∈ (publishCloseOrder cfg f q sd b).2) :
    c.channel = "orders:new"
      ∧ c.cid = (publishCloseOrder cfg f q sd b).1 := by
  unfold publishCloseOrder at hc ⊢
  by_cases hsh : cfg.shadowMode = true
  · rw [if_pos hsh] at hc
    simp at hc
  · rw [if_neg hsh] at hc ⊢
    simp at hc
    subst hc
    exact ⟨rfl, rfl⟩

/-- Every command an open publisher emits is on `orders:new` and carries the
returned cid. -/
lemma publishOpenOrder_mem (cfg : EngineConfig) (env : CandleEnv)
    (sig : SignalData) (c : Command)
    (hc : c ∈ (publishOpenOrder cfg env sig).2) :
    c.channel = "orders:new"
      ∧ (publishOpenOrder cfg env sig).1 = some c.cid := by
  unfold publishOpenOrder at hc ⊢
  rcases henv : env.livePrice with _ | e <;> simp only [henv] at hc ⊢
  · simp at hc
  · rcases hq : calculatePositionSize cfg env.balance e
        (pyRound sig.slBasePrice 2) sig.riskMultiplier with _ | q <;>
      simp only [hq] at hc ⊢
    · simp at hc
    · split_ifs at hc ⊢ <;> simp_all

/-- The modify publisher emits exactly the modify command for its arguments
(or nothing in shadow mode). -/
lemma publishModifyOrder_mem (cfg : EngineConfig) (f : String) (i : ℤ)
    (sl tp : ℚ) (c : Command)
    (hc : c ∈ (publishModifyOrder cfg f i sl tp).2) :
    c = { channel := "orders:modify", cid := "bot_mod_" ++ f,
          posIdx := some i, newStopLoss := some (pyRound sl 2),
          newTakeProfit := some (pyRound tp 2) } := by
  unfold publishModifyOrder at hc
  by_cases hsh : cfg.shadowMode = true
  · rw [if_pos hsh] at hc
    simp at hc
  · rw [if_neg hsh] at hc
    simp at hc
    exact hc

/-- Commands issued by the TP1 partial-close step are on `orders:new`. -/
lemma tp1Step_commands (cfg : EngineConfig) (s : EngineState)
    (env : CandleEnv) (syncRan : Bool) (r : CandleResult)
    (h : tp1Step cfg s env syncRan = some r) (c : Command)
    (hc : c ∈ r.commands) : c.channel = "orders:new" := by
  unfold tp1Step at h
  rcases hd : s.details with _ | d <;> simp only [hd] at h
  · split_ifs at h <;> exact Option.noConfusion h
  · rcases ht : d.tp1Price with _ | tp1 <;> simp only [ht] at h
    · split_ifs at h <;>
        first
          | exact Option.noConfusion h
          | (injection h with h
             subst h
             simp at hc)
    · split_ifs at h <;>
        first
          | exact Option.noConfusion h
          | (injection h with h
             subst h
             first
               | exact (publishCloseOrder_mem _ _ _ _ _ _ hc).1
               | simp at hc)

/-- Commands issued by the opposite-signal step are on `orders:new`. -/
lemma oppositeSignalStep_commands (cfg : EngineConfig) (s : EngineState)
    (env : CandleEnv) (sigData : Option SignalData) (syncRan : Bool)
    (r : CandleResult)
    (h : oppositeSignalStep cfg s env sigData syncRan = some r) (c : Command)
    (hc : c ∈ r.commands) : c.channel = "orders:new" := by
  rcases sigData with _ | sig
  · exact Option.noConfusion h
  · simp only [oppositeSignalStep] at h
    split_ifs at h
    injection h with h
    subst h
    exact (publishCloseOrder_mem _ _ _ _ _ _ hc).1

/-- Any modify command the trailing-stop step publishes strictly tightens
the stop and clears the tolerance band. -/
lemma trailingStep_modify (cfg : EngineConfig) (s : EngineState)
    (env : CandleEnv) (syncRan : Bool) (c : Command)
    (hc : c ∈ (trailingStep cfg s env syncRan).commands)
    (hch : c.channel = "orders:modify") :
    ∃ v : ℚ, c.newStopLoss = some v ∧ 0 < env.position.curSl
      ∧ env.position.entryPx * (1/10000) ≤ |v - env.position.curSl|
      ∧ ((env.position.side = some "Buy" ∧ env.position.curSl < v)
         ∨ (env.position.side = some "Sell" ∧ v < env.position.curSl)) := by
  simp only [trailingStep] at hc
  split at hc
  case h_2 => simp at hc
  case h_1 v heq =>
    split at hc
    · simp at hc
    · split at hc
      · simp at hc
      · next htol =>
        have hcv := publishModifyOrder_mem cfg env.freshId env.position.posIdx
          v env.position.curTp c hc
        subst hcv
        refine ⟨pyRound v 2, rfl, ?_⟩
        split at heq
        case isFalse => exact absurd heq (by simp)
        case isTrue hsl =>
          split at heq
          case isTrue hbuy =>
            split at heq
            case isFalse => exact absurd heq (by simp)
            case isTrue hgt =>
              injection heq with heq
              subst heq
              rw [pyRound_idem]
              exact ⟨hsl, not_lt.mp htol, Or.inl ⟨hbuy, hgt⟩⟩
          case isFalse hnb =>
            split at heq
            case isFalse => exact absurd heq (by simp)
            case isTrue hsell =>
              split at heq
              case isFalse => exact absurd heq (by simp)
              case isTrue hlt =>
                injection heq with heq
                subst heq
                rw [pyRound_idem]
                exact ⟨hsl, not_lt.mp htol, Or.inr ⟨hsell, hlt⟩⟩

/-- Any modify command the candle body publishes is a trailing-stop modify
with the tightening and tolerance properties. -/
lemma processCandle_modify (cfg : EngineConfig) (s : EngineState)
    (env : CandleEnv) (syncRan : Bool) (c : Command)
    (hc : c ∈ (processCandle cfg s env syncRan).commands)
    (hch : c.channel = "orders:modify") :
    ∃ v : ℚ, c.newStopLoss = some v ∧ 0 < env.position.curSl
      ∧ env.position.entryPx * (1/10000) ≤ |v - env.position.curSl|
      ∧ ((env.position.side = some "Buy" ∧ env.position.curSl < v)
         ∨ (env.position.side = some "Sell" ∧ v < env.position.curSl)) := by
  unfold processCandle at hc
  simp only [] at hc
  split at hc
  · simp at hc
  · split at hc
    · split at hc
      · simp at hc
      · split at hc
        · rename_i r heq
          have hn := tp1Step_commands cfg s env syncRan r heq c hc
          rw [hch] at hn
          exact absurd hn (by decide)
        · split at hc
          · rename_i r heq
            have hn := oppositeSignalStep_commands cfg s env _ syncRan r heq
              c hc
            rw [hch] at hn
            exact absurd hn (by decide)
          · exact trailingStep_modify cfg s env syncRan c hc hch
    · split at hc
      · rename_i sig hsigeq
        split at hc
        · rename_i cid cmds heq
          have hmem : c ∈ (publishOpenOrder cfg env sig).2 := by
            rw [heq]
            exact hc
          have hn := (publishOpenOrder_mem cfg env sig c hmem).1
          rw [hch] at hn
          exact absurd hn (by decide)
        · rename_i cmds heq
          have hmem : c ∈ (publishOpenOrder cfg env sig).2 := by
            rw [heq]
            exact hc
          have hn := (publishOpenOrder_mem cfg env sig c hmem).1
          rw [hch] at hn
          exact absurd hn (by decide)
      · simp at hc

/-- C8: trailing-stop recomputation never loosens the stop.  Every
stop-modify command the candle handler publishes satisfies: the position
had a positive current stop; for a Buy position the new stop is strictly
greater than the current stop and for a Sell position strictly lower; and
the change is at least the price-relative tolerance (0.01% of the entry
price). -/
theorem trailing_stop_never_loosens (cfg : EngineConfig) (s : EngineState)
    (env : CandleEnv) (c : Command)
    (hc : c ∈ (onNewCandle cfg s env).commands)
    (hch : c.channel = "orders:modify") :
    ∃ v : ℚ, c.newStopLoss = some v ∧ 0 < env.position.curSl
      ∧ env.position.entryPx * (1/10000) ≤ |v - env.position.curSl|
      ∧ ((env.position.side = some "Buy" ∧ env.position.curSl < v)
         ∨ (env.position.side = some "Sell" ∧ v < env.position.curSl)) := by
  unfold onNewCandle at hc
  split at hc
  · split at hc
    · exact processCandle_modify cfg _ env true c hc hch
    · simp at hc
  · exact processCandle_modify cfg s env false c hc hch

/-- The trailing-stop proposal in the concrete managed-long scenario rounds
to 49900. -/
lemma exEnvTrailing_prop : pyRound (exEnvTrailing.lastRow.low -
    exEnvTrailing.lastRow.atr * exCfg.atrMultiplier) 2 = 49900 := by
  have h : exEnvTrailing.lastRow.low -
      exEnvTrailing.lastRow.atr * exCfg.atrMultiplier = 49900 := by
    norm_num [exEnvTrailing, exRowNoCross, exCfg]
  rw [h, pyRound_eval_down _ 2 4990000
    (floor_eval _ _ (by norm_num) (by norm_num)) (by norm_num)]
  norm_num

/-- In the concrete managed-long scenario the candle handler publishes
exactly the trailing-stop modify command moving the stop to 49900. -/
lemma trailing_scenario_commands :
    (onNewCandle exCfg exStateInPos exEnvTrailing).commands =
      [{ channel := "orders:modify", cid := "bot_mod_0000",
         posIdx := some 0, newStopLoss := some 49900,
         newTakeProfit := some (pyRound exEnvTrailing.position.curTp 2) }] := by
  have h1 : onNewCandle exCfg exStateInPos exEnvTrailing =
      processCandle exCfg exStateInPos exEnvTrailing false := rfl
  have hsig : generateSignal exCfg.strategy exEnvTrailing.prevRow
      exEnvTrailing.lastRow = none := by
    unfold generateSignal
    rw [if_neg (by norm_num [exEnvTrailing, exRowNoCross]),
      if_neg (by norm_num [exEnvTrailing, exRowNoCross])]
  have ht1 : tp1Step exCfg exStateInPos exEnvTrailing false = none := by
    unfold tp1Step
    simp [exStateInPos]
  have hround : pyRound (49900 : ℚ) 2 = 49900 := by
    rw [pyRound_eval_down _ 2 4990000
      (floor_eval _ _ (by norm_num) (by norm_num)) (by norm_num)]
    norm_num
  have htr : trailingStep exCfg exStateInPos exEnvTrailing false =
      ⟨{ exStateInPos with
         pendingOrder := some ⟨"bot_mod_0000", exEnvTrailing.now, "trailing_stop", none⟩ },
       [{ channel := "orders:modify", cid := "bot_mod_0000",
          posIdx := some 0, newStopLoss := some 49900,
          newTakeProfit := some (pyRound exEnvTrailing.position.curTp 2) }],
       false⟩ := by
    unfold trailingStep
    simp only []
    rw [if_pos (show exEnvTrailing.position.curSl > 0 by
        norm_num [exEnvTrailing])]
    rw [if_pos (show exEnvTrailing.position.side = some "Buy" from rfl)]
    rw [exEnvTrailing_prop]
    rw [if_pos (show (49900 : ℚ) > exEnvTrailing.position.curSl by
        norm_num [exEnvTrailing])]
    split
    · rename_i v heq
      injection heq with heq
      subst heq
      rw [if_neg (show ¬ (49900 : ℚ) = 0 by norm_num)]
      rw [if_neg (show ¬ |(49900 : ℚ) - exEnvTrailing.position.curSl| <
          exEnvTrailing.position.entryPx * (1/10000) by
          norm_num [exEnvTrailing, abs_of_pos])]
      unfold publishModifyOrder
      rw [if_neg (show ¬ exCfg.shadowMode = true by simp [exCfg])]
      rw [hround]
      rfl
    · rename_i heq
      exact absurd heq (by simp)
  rw [h1]
  unfold processCandle
  rw [if_neg (by simp [exEnvTrailing])]
  simp only [hsig]
  rw [if_pos (show exEnvTrailing.position.size > 0 by
    norm_num [exEnvTrailing])]
  rw [if_neg (show ¬ exStateInPos.activeOrderCid = none by
    simp [exStateInPos])]
  simp only [ht1]
  simp only [oppositeSignalStep]
  rw [htr]

/-- Witness for C8: in the managed-long scenario (entry 48000, current stop
49000, candle low 50000, ATR 100) the published modify carries new stop
49900, which strictly tightens the Buy stop and clears the tolerance. -/
theorem trailing_stop_never_loosens_witness :
    ∃ v : ℚ, (some (49900 : ℚ) : Option ℚ) = some v
      ∧ 0 < exEnvTrailing.position.curSl
      ∧ exEnvTrailing.position.entryPx * (1/10000) ≤
          |v - exEnvTrailing.position.curSl|
      ∧ ((exEnvTrailing.position.side = some "Buy"
            ∧ exEnvTrailing.position.curSl < v)
         ∨ (exEnvTrailing.position.side = some "Sell"
            ∧ v < exEnvTrailing.position.curSl)) :=
  trailing_stop_never_loosens exCfg exStateInPos exEnvTrailing
    { channel := "orders:modify", cid := "bot_mod_0000", posIdx := some 0,
      newStopLoss := some 49900,
      newTakeProfit := some (pyRound exEnvTrailing.position.curTp 2) }
    (by rw [trailing_scenario_commands]; exact List.mem_singleton.mpr rfl)
    rfl

/-- The close publisher emits no command or exactly one, carrying its cid. -/
lemma publishCloseOrder_cases (cfg : EngineConfig) (f : String) (q : ℚ)
    (sd : String) (b : Bool) :
    (publishCloseOrder cfg f q sd b).2 = []
    ∨ ∃ cmd, (publishCloseOrder cfg f q sd b).2 = [cmd]
        ∧ cmd.cid = (publishCloseOrder cfg f q sd b).1 := by
  unfold publishCloseOrder
  by_cases hsh : cfg.shadowMode = true
  · rw [if_pos hsh]
    left
    rfl
  · rw [if_neg hsh]
    right
    exact ⟨_, rfl, rfl⟩

/-- The modify publisher emits no command or exactly one, carrying its
cid. -/
lemma publishModifyOrder_cases (cfg : EngineConfig) (f : String) (i : ℤ)
    (sl tp : ℚ) :
    (publishModifyOrder cfg f i sl tp).2 = []
    ∨ ∃ cmd, (publishModifyOrder cfg f i sl tp).2 = [cmd]
        ∧ cmd.cid = (publishModifyOrder cfg f i sl tp).1 := by
  unfold publishModifyOrder
  by_cases hsh : cfg.shadowMode = true
  · rw [if_pos hsh]
    left
    rfl
  · rw [if_neg hsh]
    right
    exact ⟨_, rfl, rfl⟩

/-- The open publisher emits no command or exactly one, with the returned
cid. -/
lemma publishOpenOrder_cases (cfg : EngineConfig) (env : CandleEnv)
    (sig : SignalData) :
    (publishOpenOrder cfg env sig).2 = []
    ∨ ∃ cmd, (publishOpenOrder cfg env sig).2 = [cmd]
        ∧ (publishOpenOrder cfg env sig).1 = some cmd.cid := by
  unfold publishOpenOrder
  rcases henv : env.livePrice with _ | e <;> simp only [henv]
  · left
    trivial
  · rcases hq : calculatePositionSize cfg env.balance e
        (pyRound sig.slBasePrice 2) sig.riskMultiplier with _ | q <;>
      simp only [hq]
    · left
      trivial
    · split_ifs <;>
        first
          | (left; rfl)
          | (right; exact ⟨_, rfl, rfl⟩)

/-- Commands of a TP1 early return: none, or exactly one with the new
pending lock set to its cid. -/
lemma tp1Step_spec (cfg : EngineConfig) (s : EngineState) (env : CandleEnv)
    (syncRan : Bool) (r : CandleResult)
    (h : tp1Step cfg s env syncRan = some r) :
    r.commands = []
    ∨ ∃ c p', r.commands = [c] ∧ r.state.pendingOrder = some p'
        ∧ p'.cid = c.cid := by
  unfold tp1Step at h
  rcases hd : s.details with _ | d <;> simp only [hd] at h
  · split_ifs at h <;> exact Option.noConfusion h
  · rcases ht : d.tp1Price with _ | tp1 <;> simp only [ht] at h
    · split_ifs at h <;>
        first
          | exact Option.noConfusion h
          | (injection h with h
             subst h
             left
             rfl)
    · split_ifs at h <;>
        first
          | exact Option.noConfusion h
          | (injection h with h
             subst h
             first
               | (left; rfl)
               | (rcases publishCloseOrder_cases cfg env.freshId _ _ true
                    with hc | ⟨cmd, hc, hcid⟩
                  · left
                    exact hc
                  · right
                    exact ⟨cmd, _, hc, rfl, hcid.symm⟩))

/-- Commands of an opposite-signal early return: none, or exactly one with
the new pending lock set to its cid. -/
lemma oppositeSignalStep_spec (cfg : EngineConfig) (s : EngineState)
    (env : CandleEnv) (sigData : Option SignalData) (syncRan : Bool)
    (r : CandleResult)
    (h : oppositeSignalStep cfg s env sigData syncRan = some r) :
    r.commands = []
    ∨ ∃ c p', r.commands = [c] ∧ r.state.pendingOrder = some p'
        ∧ p'.cid = c.cid := by
  rcases sigData with _ | sig
  · exact Option.noConfusion h
  · simp only [oppositeSignalStep] at h
    split_ifs at h
    injection h with h
    subst h
    rcases publishCloseOrder_cases cfg env.freshId env.position.size
        ((env.position.side).getD "") false with hc | ⟨cmd, hc, hcid⟩
    · left
      exact hc
    · right
      exact ⟨cmd, _, hc, rfl, hcid.symm⟩

/-- Commands of the trailing-stop step: none, or exactly one with the new
pending lock set to its cid. -/
lemma trailingStep_spec (cfg : EngineConfig) (s : EngineState)
    (env : CandleEnv) (syncRan : Bool) :
    (trailingStep cfg s env syncRan).commands = []
    ∨ ∃ c p', (trailingStep cfg s env syncRan).commands = [c]
        ∧ (trailingStep cfg s env syncRan).state.pendingOrder = some p'
        ∧ p'.cid = c.cid := by
  simp only [trailingStep]
  split
  · split_ifs
    · left
      rfl
    · left
      rfl
    · rename_i v heq h1 h2
      rcases publishModifyOrder_cases cfg env.freshId env.position.posIdx v
          env.position.curTp with hc | ⟨cmd, hc, hcid⟩
      · left
        exact hc
      · right
        exact ⟨cmd, _, hc, rfl, hcid.symm⟩
  · left
    rfl

/-- Commands of the candle body: none, or exactly one with the new pending
lock set to its cid. -/
lemma processCandle_spec (cfg : EngineConfig) (s : EngineState)
    (env : CandleEnv) (syncRan : Bool) :
    (processCandle cfg s env syncRan).commands = []
    ∨ ∃ c p', (processCandle cfg s env syncRan).commands = [c]
        ∧ (processCandle cfg s env syncRan).state.pendingOrder = some p'
        ∧ p'.cid = c.cid := by
  unfold processCandle
  simp only []
  split
  · left
    rfl
  · split
    · split
      · left
        rfl
      · split
        · rename_i r heq
          exact tp1Step_spec cfg s env syncRan r heq
        · split
          · rename_i r heq
            exact oppositeSignalStep_spec cfg s env _ syncRan r heq
          · exact trailingStep_spec cfg s env syncRan
    · split
      · rename_i sig hsigeq
        split
        · rename_i cid cmds heq
          rcases publishOpenOrder_cases cfg env sig with hc | ⟨cmd, hc, hcid⟩
          · left
            rw [heq] at hc
            exact hc
          · right
            rw [heq] at hc hcid
            refine ⟨cmd, ⟨cid, env.now, "open", none⟩, hc, rfl, ?_⟩
            exact Option.some.inj hcid
        · rename_i cmds heq
          rcases publishOpenOrder_cases cfg env sig with hc | ⟨cmd, hc, hcid⟩
          · left
            rw [heq] at hc
            exact hc
          · rw [heq] at hcid
            exact Option.noConfusion hcid
      · left
        rfl

/-- Commands of one update-handler step: none, or exactly one — published
only when the incoming message is the `Filled` confirmation of the
currently pending command — with the lock atomically moved to the new
command's cid. -/
lemma onOrderUpdate_spec (cfg : EngineConfig) (s : EngineState)
    (uenv : UpdateEnv) (msg : UpdateMsg) :
    (onOrderUpdate cfg s uenv msg).commands = []
    ∨ ∃ c p q, (onOrderUpdate cfg s uenv msg).commands = [c]
        ∧ s.pendingOrder = some p ∧ msg.cid = p.cid
        ∧ msg.status = "Filled"
        ∧ (onOrderUpdate cfg s uenv msg).state.pendingOrder = some q
        ∧ q.cid = c.cid := by
  unfold onOrderUpdate
  split
  · left
    rfl
  · rename_i p hp
    split_ifs with h1 h2 h3 h4 h5 h6 h7
    · left
      rfl
    · left
      rfl
    · split
      · rename_i d hd
        simp only []
        split
        · rename_i ep hep
          split_ifs with hbe
          · rcases publishModifyOrder_cases cfg uenv.freshId (p.posIdx.getD 0)
                ep 0 with hc | ⟨cmd, hc, hcid⟩
            · left
              exact hc
            · right
              refine ⟨cmd, p, _, hc, hp, not_not.mp h1, h2, rfl, hcid.symm⟩
          · left
            rfl
        · left
          rfl
      · left
        rfl
    · left
      rfl
    · left
      rfl
    · left
      rfl
    · left
      rfl
    · left
      rfl

/-- A TP1 early return carries the syncRan flag it was given. -/
lemma tp1Step_syncRan (cfg : EngineConfig) (s : EngineState)
    (env : CandleEnv) (b : Bool) (r : CandleResult)
    (h : tp1Step cfg s env b = some r) : r.syncRan = b := by
  unfold tp1Step at h
  rcases hd : s.details with _ | d <;> simp only [hd] at h
  · split_ifs at h <;> exact Option.noConfusion h
  · rcases ht : d.tp1Price with _ | tp1 <;> simp only [ht] at h
    · split_ifs at h <;>
        first
          | exact Option.noConfusion h
          | (injection h with h
             subst h
             rfl)
    · split_ifs at h <;>
        first
          | exact Option.noConfusion h
          | (injection h with h
             subst h
             rfl)

/-- An opposite-signal early return carries the syncRan flag it was
given. -/
lemma oppositeSignalStep_syncRan (cfg : EngineConfig) (s : EngineState)
    (env : CandleEnv) (sigData : Option SignalData) (b : Bool)
    (r : CandleResult)
    (h : oppositeSignalStep cfg s env sigData b = some r) : r.syncRan = b := by
  rcases sigData with _ | sig
  · exact Option.noConfusion h
  · simp only [oppositeSignalStep] at h
    split_ifs at h
    injection h with h
    subst h
    rfl

/-- The trailing-stop step carries the syncRan flag it was given. -/
lemma trailingStep_syncRan (cfg : EngineConfig) (s : EngineState)
    (env : CandleEnv) (b : Bool) :
    (trailingStep cfg s env b).syncRan = b := by
  simp only [trailingStep]
  split
  · split_ifs <;> rfl
  · rfl

/-- Any candle body invoked with syncRan set reports a reconciliation. -/
lemma processCandle_syncRan_true (cfg : EngineConfig) (s : EngineState)
    (env : CandleEnv) : (processCandle cfg s env true).syncRan = true := by
  unfold processCandle
  simp only []
  split
  · rfl
  · split
    · split
      · rfl
      · split
        · rename_i r heq
          exact tp1Step_syncRan cfg s env true r heq
        · split
          · rename_i r heq
            exact oppositeSignalStep_syncRan cfg s env _ true r heq
          · exact trailingStep_syncRan cfg s env true
    · split
      · split <;> rfl
      · rfl

/-- C1: mutual exclusion of pending commands.  While a command is pending
and not timed out, the candle handler returns immediately — unchanged state,
nothing published, no strategy evaluation or position management (no sync).
Each handler invocation publishes at most one command; the candle handler
publishes only from an empty (or force-expired) pending slot; and every
published command becomes the single pending command — the update handler
publishes only in the same atomic step that consumes the pending command's
own `Filled` confirmation, immediately re-locking on the new cid.  Hence at
most one unconfirmed command exists per symbol at any time. -/
theorem pending_lock_mutual_exclusion (cfg : EngineConfig) (s : EngineState)
    (env : CandleEnv) (uenv : UpdateEnv) (msg : UpdateMsg) :
    (∀ p, s.pendingOrder = some p →
      env.now - p.timestamp ≤ pendingOrderTimeout →
      onNewCandle cfg s env = ⟨s, [], false⟩)
    ∧ (onNewCandle cfg s env).commands.length ≤ 1
    ∧ ((onNewCandle cfg s env).commands ≠ [] →
        s.pendingOrder = none
        ∨ ∃ p, s.pendingOrder = some p
            ∧ pendingOrderTimeout < env.now - p.timestamp)
    ∧ (∀ c ∈ (onNewCandle cfg s env).commands,
        ∃ q, (onNewCandle cfg s env).state.pendingOrder = some q
          ∧ q.cid = c.cid)
    ∧ (onOrderUpdate cfg s uenv msg).commands.length ≤ 1
    ∧ (∀ c ∈ (onOrderUpdate cfg s uenv msg).commands,
        ∃ p, s.pendingOrder = some p ∧ msg.cid = p.cid
          ∧ msg.status = "Filled"
          ∧ ∃ q, (onOrderUpdate cfg s uenv msg).state.pendingOrder = some q
              ∧ q.cid = c.cid) := by
  have hcandle : (onNewCandle cfg s env).commands = []
      ∨ ∃ c p', (onNewCandle cfg s env).commands = [c]
          ∧ (onNewCandle cfg s env).state.pendingOrder = some p'
          ∧ p'.cid = c.cid := by
    unfold onNewCandle
    split
    · split
      · exact processCandle_spec cfg _ env true
      · left
        rfl
    · exact processCandle_spec cfg s env false
  have hupd := onOrderUpdate_spec cfg s uenv msg
  refine ⟨?_, ?_, ?_, ?_, ?_, ?_⟩
  · intro p hp hto
    unfold onNewCandle
    simp only [hp]
    rw [if_neg (not_lt.mpr hto)]
  · rcases hcandle with h | ⟨c, p', h, _, _⟩ <;> simp [h]
  · intro hne
    rcases hps : s.pendingOrder with _ | p
    · left
      rfl
    · by_cases hto : pendingOrderTimeout < env.now - p.timestamp
      · right
        exact ⟨p, rfl, hto⟩
      · exfalso
        apply hne
        unfold onNewCandle
        simp only [hps]
        rw [if_neg hto]
  · intro c hc
    rcases hcandle with h | ⟨c', p', h, hq, hcid⟩
    · rw [h] at hc
      exact absurd hc (by simp)
    · rw [h] at hc
      rw [List.mem_singleton] at hc
      subst hc
      exact ⟨p', hq, hcid⟩
  · rcases hupd with h | ⟨c, p, q, h, _⟩ <;> simp [h]
  · intro c hc
    rcases hupd with h | ⟨c', p, q, h, hp, hcid, hst, hq, hqc⟩
    · rw [h] at hc
      exact absurd hc (by simp)
    · rw [h] at hc
      rw [List.mem_singleton] at hc
      subst hc
      exact ⟨p, hp, hcid, hst, q, hq, hqc⟩

/-- Witness for C1: with a command pending for 50 s (below the 120 s
timeout) the candle handler returns the state unchanged with nothing
published and no reconciliation; and this same step publishes no commands
at all. -/
theorem pending_lock_mutual_exclusion_witness :
    onNewCandle exCfg exStatePending exEnvFresh = ⟨exStatePending, [], false⟩
    ∧ (onNewCandle exCfg exStatePending exEnvFresh).commands.length ≤ 1 :=
  ⟨(pending_lock_mutual_exclusion exCfg exStatePending exEnvFresh
      ⟨0, "0000"⟩ { cid := "x", status := "Filled" }).1
      ⟨"bot_open_x", 0, "open", none⟩ rfl
      (by norm_num [exEnvFresh, pendingOrderTimeout]),
   (pending_lock_mutual_exclusion exCfg exStatePending exEnvFresh
      ⟨0, "0000"⟩ { cid := "x", status := "Filled" }).2.1⟩

/-- C4 counterexample: a command pending far beyond the 120 s timeout is
**not** cleared without a candle message: with no messages the state never
changes, and even an order-update message for a different cid (arriving at
t = 1000) leaves the expired pending command in place and triggers no
reconciliation — the timeout transition is candle-message-driven, not
time-driven. -/
theorem timeout_not_time_driven_counterexample :
    pendingOrderTimeout < (1000 : ℚ) - 0
    ∧ runEngine exCfg exStatePending [] = exStatePending
    ∧ (onOrderUpdate exCfg exStatePending ⟨1000, "0000"⟩ exMsgOtherCid).state
        = exStatePending
    ∧ exStatePending.pendingOrder = some ⟨"bot_open_x", 0, "open", none⟩ := by
  refine ⟨by norm_num [pendingOrderTimeout], rfl, ?_, rfl⟩
  unfold onOrderUpdate
  simp only [exStatePending]
  rw [if_pos (by decide : ¬ exMsgOtherCid.cid = "bot_open_x")]

/-- C4 as amended: the pending-command timeout is checked only at the top
of the candle handler.  When a candle message arrives and the command has
been pending longer than 120 s, the lock is force-cleared, a reconciliation
pass (`_sync_position_on_startup`) runs, and candle processing continues on
the reconciled state; without a candle message the expired lock persists. -/
theorem pending_timeout_cleared_on_next_candle (cfg : EngineConfig)
    (s : EngineState) (env : CandleEnv) (p : PendingOrder)
    (hp : s.pendingOrder = some p)
    (hto : pendingOrderTimeout < env.now - p.timestamp) :
    onNewCandle cfg s env =
      processCandle cfg
        (syncPositionOnStartup { s with pendingOrder := none } env) env true
    ∧ (onNewCandle cfg s env).syncRan = true := by
  have h : onNewCandle cfg s env =
      processCandle cfg
        (syncPositionOnStartup { s with pendingOrder := none } env) env
        true := by
    unfold onNewCandle
    simp only [hp]
    rw [if_pos hto]
  refine ⟨h, ?_⟩
  rw [h]
  exact processCandle_syncRan_true cfg _ env

/-- Witness for the amended C4: the 1000 s-old pending command is cleared
and reconciliation runs when the next candle arrives. -/
theorem pending_timeout_cleared_on_next_candle_witness :
    onNewCandle exCfg exStatePending exEnvExpired =
      processCandle exCfg
        (syncPositionOnStartup { exStatePending with pendingOrder := none }
          exEnvExpired) exEnvExpired true
    ∧ (onNewCandle exCfg exStatePending exEnvExpired).syncRan = true :=
  pending_timeout_cleared_on_next_candle exCfg exStatePending exEnvExpired
    ⟨"bot_open_x", 0, "open", none⟩ rfl
    (by norm_num [exEnvExpired, pendingOrderTimeout])

end BotTrade
